import Mathlib

/-!
# onepaas/worker: deployment pipeline

A shallow embedding of the four Temporal activities (`git.Clone`,
`docker.BuildAndPublish`, `helm.CreateChart`, `helm.UpgradeInstall`) and of the
`deployment.Deploy` workflow that sequences them.

Collaborators that live outside the repository (the uuid generator, go-git, the
dagger engine, the operating system, the Temporal scheduler) are explicit
arguments: every activity takes the outcomes its collaborators produce and
returns its Go result together with the log records it emitted and the requests
it sent to the collaborators, in program order.
-/

namespace OnePaas

/-! ## Errors -/

/-- Error numbers of the operating system that the model distinguishes. -/
inductive Errno
  | ENOENT
  | ENOTDIR
  | EACCES
  | EISDIR
  deriving DecidableEq, Repr

/-- A cleaned file path, as the list of its components. -/
abbrev Path := List String

/-- An ordinary Go `error` value handed back by a collaborator library
(uuid, go-git, dagger, text/template) or by the operating system. -/
inductive GoError
  | lib (msg : String)
  | pathError (op : String) (path : Path) (errno : Errno)
  | wrapped (msg : String) (cause : GoError)
  deriving DecidableEq, Repr

/-- One element of the variadic `details` of a Temporal application error. -/
inductive Detail
  | str (s : String)
  | int (n : Int)
  deriving DecidableEq, Repr

/-- The `error` an activity or the workflow returns: either a collaborator error
passed on as it is, or a Temporal application error. -/
inductive Error
  | plain (e : GoError)
  | application (message : String) (errType : String) (nonRetryable : Bool)
      (cause : Option GoError) (details : List Detail)
  deriving DecidableEq, Repr

namespace temporal

/-- Go: `temporal.NewNonRetryableApplicationError(message, errType, cause, details...)`. -/
def NewNonRetryableApplicationError (message errType : String) (cause : Option GoError)
    (details : List Detail) : Error :=
  .application message errType true cause details

end temporal

/-- Whether the Temporal retry policy may re-attempt after this error: an
application error says so itself, any other Go error is retryable. -/
def Error.retryable : Error → Bool
  | .plain _ => true
  | .application _ _ nonRetryable _ _ => !nonRetryable

/-- The declared type of an application error; an ordinary Go error declares none. -/
def Error.declaredType : Error → Option String
  | .plain _ => none
  | .application _ errType _ _ _ => some errType

/-- The details of an application error. -/
def Error.details : Error → List Detail
  | .plain _ => []
  | .application _ _ _ _ details => details

/-! ## Parameter objects -/

/-- Go: `git.CloneParam`. -/
structure CloneParam where
  URL : String
  Branch : String
  Tag : String
  Ref : String
  deriving DecidableEq, Repr

/-- Go: `git.CloneResult`. -/
structure CloneResult where
  RepositoryPath : String
  deriving DecidableEq, Repr

/-- Go: `docker.BuildAndPublishParam`. -/
structure BuildAndPublishParam where
  WorkDirectory : String
  Dockerfile : String
  RegistryAddress : String
  RegistryUsername : String
  RegistrySecret : String
  ImageRepository : String
  ImageTag : String
  deriving DecidableEq, Repr

/-- Go: `helm.CreateChartParam`. -/
structure CreateChartParam where
  RepositoryPath : String
  ApplicationName : String
  ApplicationSlug : String
  ApplicationHostname : String
  ImageRegistry : String
  ImageRepository : String
  ImageTag : String
  KubernetesIngressClass : String
  deriving DecidableEq, Repr

/-- Go: `helm.UpgradeInstallParam`. -/
structure UpgradeInstallParam where
  RepositoryPath : String
  ApplicationSlug : String
  KubernetesCA : String
  KubernetesAPIServer : String
  KubernetesToken : String
  KubernetesNamespace : String
  deriving DecidableEq, Repr

/-- Go: `deployment.DeployParam`. -/
structure DeployParam where
  RepositoryURL : String
  RepositoryBranch : String
  RepositoryTag : String
  RepositoryRef : String
  RegistryAddress : String
  RegistryUsername : String
  RegistrySecret : String
  ImageRepository : String
  ImageTag : String
  ApplicationName : String
  ApplicationSlug : String
  ApplicationHostname : String
  KubernetesIngressClass : String
  KubernetesCA : String
  KubernetesToken : String
  KubernetesAPIServer : String
  KubernetesNamespace : String
  deriving DecidableEq, Repr

/-! ## Log records -/

/-- Severity of a log record. -/
inductive LogLevel
  | Info
  | Error
  deriving DecidableEq, Repr

/-- A value handed to the logger under a key. The logger receives the Go value
itself, so a parameter object is recorded with all of its fields. -/
inductive LogValue
  | str (s : String)
  | path (p : Path)
  | goError (e : GoError)
  | error (e : Error)
  | cloneParam (p : CloneParam)
  | buildAndPublishParam (p : BuildAndPublishParam)
  | createChartParam (p : CreateChartParam)
  | upgradeInstallParam (p : UpgradeInstallParam)
  | deployParam (p : DeployParam)
  deriving DecidableEq, Repr

/-- One call of `logger.Info` or `logger.Error`: the message and the key/value pairs. -/
structure LogRecord where
  level : LogLevel
  msg : String
  fields : List (String × LogValue)
  deriving DecidableEq, Repr

/-- Go: `logger.Info(msg, keyvals...)`. -/
def logInfo (msg : String) (fields : List (String × LogValue)) : LogRecord :=
  { level := .Info, msg := msg, fields := fields }

/-- Go: `logger.Error(msg, keyvals...)`. -/
def logError (msg : String) (fields : List (String × LogValue)) : LogRecord :=
  { level := .Error, msg := msg, fields := fields }

/-! ## google/uuid -/

namespace uuid

/-- Go: `uuid.UUID`, an array of 16 bytes. -/
structure UUID where
  bytes : List (Fin 256)
  size : bytes.length = 16
  deriving DecidableEq

/-- One lower-case hexadecimal digit (Go: the table `"0123456789abcdef"` of `encoding/hex`). -/
def hexDigit (n : Nat) : Char :=
  ['0', '1', '2', '3', '4', '5', '6', '7', '8', '9', 'a', 'b', 'c', 'd', 'e', 'f'].getD n '0'

/-- Go: `hex.Encode`: two digits per byte, high nibble first. -/
def hexEncode : List (Fin 256) → List Char
  | [] => []
  | b :: bs => hexDigit (b.val / 16) :: hexDigit (b.val % 16) :: hexEncode bs

/-- Go: `encodeHex`: the canonical 8-4-4-4-12 layout. -/
def encodeHex (u : UUID) : List Char :=
  hexEncode (u.bytes.take 4) ++ '-' ::
    (hexEncode ((u.bytes.drop 4).take 2) ++ '-' ::
      (hexEncode ((u.bytes.drop 6).take 2) ++ '-' ::
        (hexEncode ((u.bytes.drop 8).take 2) ++ '-' ::
          hexEncode (u.bytes.drop 10))))

/-- Go: `UUID.String()`, which `fmt.Sprintf("%s", id)` calls. -/
def UUID.String (u : UUID) : String :=
  String.mk (encodeHex u)

end uuid

/-! ## Git activity -/

namespace plumbing

/-- Go (go-git): `refHeadPrefix`. -/
def refHeadPrefix : String := "refs/heads/"

/-- Go (go-git): `refTagPrefix`. -/
def refTagPrefix : String := "refs/tags/"

/-- Go (go-git): `plumbing.NewBranchReferenceName`. -/
def NewBranchReferenceName (name : String) : String :=
  refHeadPrefix ++ name

/-- Go (go-git): `plumbing.NewTagReferenceName`. -/
def NewTagReferenceName (name : String) : String :=
  refTagPrefix ++ name

end plumbing

namespace git

/-- Go: `git.ProjectsBaseDir`. -/
def ProjectsBaseDir : String := "/tmp/projects"

/-- Go: `git.CloneActivityName`. -/
def CloneActivityName : String := "GitClone"

/-- Go: `git.ErrorTypeNoReferenceSpecified`. -/
def ErrorTypeNoReferenceSpecified : String := "ErrNoReferenceSpecified"

/-- Go (go-git): the fields of `git.CloneOptions` that `Clone` sets. -/
structure CloneOptions where
  URL : String
  Depth : Nat
  ReferenceName : String
  SingleBranch : Bool
  deriving DecidableEq, Repr

/-- One call of `git.CloneContext(ctx, storer, worktree, options)`: the root of the
object store, the root of the working tree (both as paths of the activity's
filesystem) and the options. -/
structure CloneCall where
  storerRoot : String
  worktreeRoot : String
  options : CloneOptions
  deriving DecidableEq, Repr

/-- Go: `desfacer.New(afero.NewBasePathFs(fs, base)).Chroot(dir)`: the root of the
resulting filesystem, as a path of `fs`. -/
def chrootRoot (base dir : String) : String :=
  base ++ dir

/-- Root of the working-tree filesystem of the run that was allocated `id`
(Go: `Chroot(fmt.Sprintf("/%s", projectDirName))`). -/
def worktreeRoot (id : uuid.UUID) : String :=
  chrootRoot ProjectsBaseDir ("/" ++ id.String)

/-- Root of the object-store filesystem of the run that was allocated `id`
(Go: `Chroot(fmt.Sprintf("/%s/.git", projectDirName))`). -/
def gitRoot (id : uuid.UUID) : String :=
  chrootRoot ProjectsBaseDir ("/" ++ id.String ++ "/.git")

/-- What the collaborators of `Clone` do in one run: the outcome of
`uuid.NewRandom()` and the error, if any, of `git.CloneContext` on a given call. -/
structure Env where
  NewRandom : Except GoError uuid.UUID
  CloneContext : CloneCall → Option GoError

/-- Everything observable of one run of `Clone`. -/
structure Run where
  result : Except Error CloneResult
  logs : List LogRecord
  clones : List CloneCall

/-- Go: `(*Activity).Clone`. -/
def Clone (env : Env) (param : CloneParam) : Run :=
  let started := logInfo "Git:Clone activity started" [("Param", .cloneParam param)]
  match env.NewRandom with
  | .error err =>
    { result := .error (temporal.NewNonRetryableApplicationError
        "unable to generate an uuid" "" (some err) [])
      logs := [started, logError "Git:Clone unable to generate an uuid" [("Error", .goError err)]]
      clones := [] }
  | .ok projectDirName =>
    let noReference : Run :=
      { result := .error (temporal.NewNonRetryableApplicationError
          "no reference specified" ErrorTypeNoReferenceSpecified none [])
        logs := [started]
        clones := [] }
    let cloneWith (refName : String) : Run :=
      let call : CloneCall :=
        { storerRoot := gitRoot projectDirName
          worktreeRoot := worktreeRoot projectDirName
          options := { URL := param.URL, Depth := 1, ReferenceName := refName, SingleBranch := true } }
      match env.CloneContext call with
      | some err =>
        { result := .error (.plain err)
          logs := [started, logError "Git:Clone unable to clone the repository" [("Error", .goError err)]]
          clones := [call] }
      | none =>
        { result := .ok { RepositoryPath := ProjectsBaseDir ++ "/" ++ projectDirName.String }
          logs := [started, logInfo "Git:Clone activity was executed successfully." []]
          clones := [call] }
    if param.Branch ≠ "" then
      cloneWith (plumbing.NewBranchReferenceName param.Branch)
    else if param.Tag ≠ "" then
      cloneWith (plumbing.NewTagReferenceName param.Tag)
    else if param.Ref ≠ "" then
      cloneWith param.Ref
    else
      noReference

end git

/-! ## Docker activity -/

namespace docker

/-- Go: `docker.BuildAndPublishActivityName`. -/
def BuildAndPublishActivityName : String := "DockerBuildAndPublish"

/-- Go: `docker.DefaultDockerfilePath`. -/
def DefaultDockerfilePath : String := "./Dockerfile"

/-- Go: `docker.DefaultRegistryAddress`. -/
def DefaultRegistryAddress : String := "docker.io"

/-- Go: `docker.DefaultImageTag`. -/
def DefaultImageTag : String := "latest"

/-- One chain `client.Host().Directory(directory).DockerBuild(opts).WithRegistryAuth(
address, username, client.SetSecret(name, value)).Publish(ctx, address)` sent to the
engine that was connected with working directory `workdir`. -/
structure PublishRequest where
  workdir : String
  directory : String
  dockerfile : String
  authAddress : String
  authUsername : String
  secretName : String
  secretValue : String
  address : String
  deriving DecidableEq, Repr

/-- What the dagger engine does in one run: the error, if any, of `dagger.Connect`
with the given working directory, of `Publish` on a given request and of
`client.Close`. -/
structure Env where
  Connect : String → Option GoError
  Publish : PublishRequest → Option GoError
  Close : Option GoError

/-- Everything observable of one run of `BuildAndPublish`. -/
structure Run where
  result : Option Error
  logs : List LogRecord
  published : List PublishRequest

/-- Go: docker.go lines 60 to 70, the three `if param.X == ""` assignments. -/
def resolveDefaults (param : BuildAndPublishParam) : BuildAndPublishParam :=
  let param := if param.Dockerfile = "" then { param with Dockerfile := DefaultDockerfilePath } else param
  let param := if param.RegistryAddress = "" then { param with RegistryAddress := DefaultRegistryAddress } else param
  if param.ImageTag = "" then { param with ImageTag := DefaultImageTag } else param

/-- Go: docker.go line 72, `fmt.Sprintf("%s/%s:%s", ...)` on the parameters after the
defaults were filled in. -/
def publishAddress (param : BuildAndPublishParam) : String :=
  param.RegistryAddress ++ "/" ++ param.ImageRepository ++ ":" ++ param.ImageTag

/-- Go: the deferred closure of `BuildAndPublish`, run when the function returns. -/
def deferredClose (env : Env) : List LogRecord :=
  match env.Close with
  | some err => [logError "Docker:BuildAndPublish unable to close the dagger client" [("Error", .goError err)]]
  | none => []

/-- Go: `(*Activity).BuildAndPublish`. -/
def BuildAndPublish (env : Env) (param : BuildAndPublishParam) : Run :=
  let started := logInfo "Docker:BuildAndPublish activity started" [("Param", .buildAndPublishParam param)]
  match env.Connect param.WorkDirectory with
  | some err =>
    { result := some (.plain err)
      logs := [started,
        logError "Docker:BuildAndPublish unable to connect to the dagger service" [("Error", .goError err)]]
      published := [] }
  | none =>
    let param := resolveDefaults param
    let request : PublishRequest :=
      { workdir := param.WorkDirectory
        directory := "."
        dockerfile := param.Dockerfile
        authAddress := param.RegistryAddress
        authUsername := param.RegistryUsername
        secretName := "registrySecret"
        secretValue := param.RegistrySecret
        address := publishAddress param }
    match env.Publish request with
    | some err =>
      { result := some (.plain err)
        logs := [started,
          logError "Docker:BuildAndPublish unable to build and publish the container image"
            [("Error", .goError err)]] ++ deferredClose env
        published := [request] }
    | none =>
      { result := none
        logs := [started, logInfo "Docker:BuildAndPublish activity was executed successfully." []]
          ++ deferredClose env
        published := [request] }

end docker

/-! ## Standard library: strings, path/filepath, os -/

namespace strings

/-- Go: `strings.HasSuffix`. -/
def HasSuffix (s suffix : String) : Bool :=
  suffix.data.isSuffixOf s.data

/-- Go: `strings.TrimSuffix`: `s` without the trailing `suffix`, or `s` itself when
it does not end in `suffix`. -/
def TrimSuffix (s suffix : String) : String :=
  if HasSuffix s suffix then String.mk (s.data.take (s.data.length - suffix.data.length)) else s

end strings

namespace filepath

/-- The pieces of a character sequence between its slashes. -/
def splitChars : List Char → List (List Char)
  | [] => [[]]
  | c :: cs =>
    if c = '/' then [] :: splitChars cs
    else
      match splitChars cs with
      | [] => [[c]]
      | x :: xs => (c :: x) :: xs

/-- The slash-separated elements of a path string, not yet cleaned. -/
def split (s : String) : List String :=
  (splitChars s.data).map String.mk

/-- One step of `filepath.Clean` on the elements read so far: an empty element and
`.` are dropped, `..` removes the element before it. -/
def cleanStep (acc : Path) (c : String) : Path :=
  if c = "" ∨ c = "." then acc
  else if c = ".." then acc.dropLast
  else acc ++ [c]

/-- Go: `filepath.Clean`, on path elements. A relative path is resolved against the
working directory of the process, which the model takes to be the root. -/
def Clean (elems : List String) : Path :=
  elems.foldl cleanStep []

/-- Go: `filepath.Join(elem...)`: the elements are put one after the other and the
result is cleaned. Each argument is given by its elements. -/
def Join (elems : List (List String)) : Path :=
  Clean elems.flatten

/-- Go: `filepath.Dir`: all but the last element of the path. -/
def Dir (s : String) : List String :=
  (split s).dropLast

/-- Go: `path.Base`: the last element of the path, trailing slashes removed; `.` for
the empty path and `/` for a path of slashes only. -/
def Base (s : String) : String :=
  match ((split s).filter (fun c => c ≠ "")).getLast? with
  | some c => c
  | none => if s = "" then "." else "/"

end filepath

namespace os

/-- An entry of the filesystem: a directory, with whether entries may be created in
it, or a regular file with its content. -/
inductive Node
  | dir (writable : Bool)
  | file (content : String)
  deriving DecidableEq, Repr

/-- A filesystem state: the entry, if any, at each path. -/
abbrev FileSystem := Path → Option Node

/-- The state with the entry at `path` replaced. -/
def FileSystem.set (fs : FileSystem) (path : Path) (n : Node) : FileSystem :=
  fun q => if q = path then some n else fs q

/-- Path resolution: from the directory `cur`, descend along `rest`. -/
def lookup (fs : FileSystem) : Path → List String → Except Errno Node
  | cur, [] =>
    match fs cur with
    | some n => .ok n
    | none => .error .ENOENT
  | cur, c :: rest =>
    match fs cur with
    | some (.dir _) => lookup fs (cur ++ [c]) rest
    | some (.file _) => .error .ENOTDIR
    | none => .error .ENOENT

/-- Go: `os.Stat`. -/
def Stat (fs : FileSystem) (path : Path) : Except GoError Node :=
  match lookup fs [] path with
  | .ok n => .ok n
  | .error errno => .error (.pathError "stat" path errno)

/-- Go: `os.IsNotExist(err)` on the error of a `Stat`; false when there is no error. -/
def IsNotExist (r : Except GoError Node) : Bool :=
  match r with
  | .error (.pathError _ _ .ENOENT) => true
  | _ => false

/-- Go: the recursion of `os.MkdirAll`, read from the root: along `rest` below the
directory `cur`, existing directories are entered and a missing one is created
(mode 0755) when its parent is writable. The error is the `PathError` of the
component that stopped it: the entry that is not a directory, or the directory
whose `Mkdir` failed. -/
def mkdirFrom (fs : FileSystem) : Path → List String → FileSystem × Option GoError
  | cur, [] =>
    match fs cur with
    | some (.dir _) => (fs, none)
    | some (.file _) => (fs, some (.pathError "mkdir" cur .ENOTDIR))
    | none => (fs, some (.pathError "mkdir" cur .ENOENT))
  | cur, c :: rest =>
    match fs cur with
    | some (.dir writable) =>
      match fs (cur ++ [c]) with
      | some _ => mkdirFrom fs (cur ++ [c]) rest
      | none =>
        if writable then mkdirFrom (fs.set (cur ++ [c]) (.dir true)) (cur ++ [c]) rest
        else (fs, some (.pathError "mkdir" (cur ++ [c]) .EACCES))
    | some (.file _) => (fs, some (.pathError "mkdir" cur .ENOTDIR))
    | none => (fs, some (.pathError "mkdir" cur .ENOENT))

/-- Go: `os.MkdirAll(path, fs.ModeDir|0755)`: creates the directory and every missing
parent; what was created before a failure stays, and the error names the
component that failed. -/
def MkdirAll (fs : FileSystem) (path : Path) : FileSystem × Option GoError :=
  mkdirFrom fs [] path

/-- Go: `os.Create(name)`: opens the file for writing, created empty when missing and
truncated when present. -/
def Create (fs : FileSystem) (path : Path) : FileSystem × Option GoError :=
  match lookup fs [] path.dropLast with
  | .error errno => (fs, some (.pathError "open" path errno))
  | .ok (.file _) => (fs, some (.pathError "open" path .ENOTDIR))
  | .ok (.dir writable) =>
    if path = [] then (fs, some (.pathError "open" path .EISDIR))
    else
      match fs path with
      | some (.dir _) => (fs, some (.pathError "open" path .EISDIR))
      | some (.file _) => (fs.set path (.file ""), none)
      | none =>
        if writable then (fs.set path (.file ""), none)
        else (fs, some (.pathError "open" path .EACCES))

/-- Go: `(*os.File).Write` on the file opened at `path`: the bytes are appended. -/
def Write (fs : FileSystem) (path : Path) (out : String) : FileSystem :=
  match fs path with
  | some (.file content) => fs.set path (.file (content ++ out))
  | _ => fs

end os

/-! ## Helm activity: upgrade or install -/

namespace helm

/-- Go: `helm.TemplateExtension`. -/
def TemplateExtension : String := ".gohtml"

/-- Go: `helm.CreateChartActivityName`. -/
def CreateChartActivityName : String := "HelmCreateChart"

/-- Go: `helm.UpgradeInstallActivityName`. -/
def UpgradeInstallActivityName : String := "HelmUpgradeInstall"

/-- Go: `helm.ErrorTypeHelmUpgradeFailed`. -/
def ErrorTypeHelmUpgradeFailed : String := "ErrHelmUpgradeFailed"

/-- One call of the builder chain on `client.Container()`. -/
inductive ContainerStep
  | From (address : String)
  | WithMountedDirectory (path : String) (hostDirectory : String)
  | WithWorkdir (path : String)
  | WithNewFile (path : String) (contents : String)
  | WithEnvVariable (name : String) (value : String)
  | WithSecretVariable (name : String) (secretName : String) (secretValue : String)
  | WithExec (args : List String)
  deriving DecidableEq, Repr

/-- The container whose exit code `UpgradeInstall` asks for, on an engine that was
connected with working directory `workdir`. -/
structure ExitCodeRequest where
  workdir : String
  steps : List ContainerStep
  deriving DecidableEq, Repr

/-- What the dagger engine does in one run of `UpgradeInstall`: the error, if any,
of `dagger.Connect`, the outcome of `helmImg.ExitCode(ctx)` and the error, if
any, of `client.Close`. -/
structure UpgradeEnv where
  Connect : String → Option GoError
  ExitCode : ExitCodeRequest → Except GoError Int
  Close : Option GoError

/-- Everything observable of one run of `UpgradeInstall`. -/
structure UpgradeRun where
  result : Option Error
  logs : List LogRecord
  requests : List ExitCodeRequest

/-- Go: helm.go lines 176 to 193, the container `helmImg`. -/
def helmImg (param : UpgradeInstallParam) : List ContainerStep :=
  [ .From "alpine/helm:3.11.3",
    .WithMountedDirectory "/chart" "./.onepaas/chart",
    .WithWorkdir "/chart",
    .WithNewFile "/chart/ca.crt" param.KubernetesCA,
    .WithEnvVariable "HELM_KUBEAPISERVER" param.KubernetesAPIServer,
    .WithEnvVariable "HELM_KUBECAFILE" "/chart/ca.crt",
    .WithSecretVariable "HELM_KUBETOKEN" "kubeToken" param.KubernetesToken,
    .WithExec ["repo", "add", "companyinfo", "https://companyinfo.github.io/helm-charts"],
    .WithExec ["dependency", "build"],
    .WithExec ["--namespace", param.KubernetesNamespace, "upgrade", "--install", "--cleanup-on-fail",
      param.ApplicationSlug, "."] ]

/-- Go: the deferred closure of `UpgradeInstall`, run when the function returns. -/
def upgradeDeferredClose (env : UpgradeEnv) : List LogRecord :=
  match env.Close with
  | some err => [logError "Helm:UpgradeInstall unable to close the dagger client" [("Error", .goError err)]]
  | none => []

/-- Go: `(*Activity).UpgradeInstall`. -/
def UpgradeInstall (env : UpgradeEnv) (param : UpgradeInstallParam) : UpgradeRun :=
  let started := logInfo "Helm:UpgradeInstall activity started" [("Param", .upgradeInstallParam param)]
  match env.Connect param.RepositoryPath with
  | some err =>
    { result := some (.plain err)
      logs := [started,
        logError "Helm:UpgradeInstall unable to connect to the dagger service" [("Error", .goError err)]]
      requests := [] }
  | none =>
    let request : ExitCodeRequest := { workdir := param.RepositoryPath, steps := helmImg param }
    match env.ExitCode request with
    | .error err =>
      { result := some (.plain err)
        logs := [started,
          logError "Helm:UpgradeInstall no command has been executed" [("Error", .goError err)]]
          ++ upgradeDeferredClose env
        requests := [request] }
    | .ok exitCode =>
      if exitCode ≠ 0 then
        { result := some (temporal.NewNonRetryableApplicationError
            "the Helm command returned non-zero exit code" ErrorTypeHelmUpgradeFailed none
            [.str "ExitCode", .int exitCode])
          logs := [started] ++ upgradeDeferredClose env
          requests := [request] }
      else
        { result := none
          logs := [started] ++ upgradeDeferredClose env
          requests := [request] }

end helm

/-! ## Helm activity: chart creation -/

namespace helm

/-- Go: `helm.templateData`. -/
structure templateData where
  ApplicationName : String
  ApplicationSlug : String
  ApplicationHostname : String
  ImageRegistry : String
  ImageRepository : String
  ImageTag : String
  KubernetesIngressClass : String
  deriving DecidableEq, Repr

/-- Go: `*template.Template`, as far as the activity uses it: its name and what
`Execute(wr, data)` writes to `wr` together with the error it returns, if any. -/
structure Template where
  Name : String
  Execute : templateData → String × Option GoError

/-- One entry that `fs.WalkDir(chart, ".", ...)` visits in the embedded filesystem
`chart`: its path, the walk error handed to the callback, whether it is a
directory, and what parsing its content as a template gives. -/
structure EmbedEntry where
  path : String
  walkErr : Option GoError
  isDir : Bool
  parsed : Except GoError (templateData → String × Option GoError)

/-- Go: `template.ParseFS(chart, path)`: the template is named by the base name of
the file. -/
def ParseFS (entry : EmbedEntry) : Except GoError Template :=
  match entry.parsed with
  | .error err => .error err
  | .ok body => .ok { Name := filepath.Base entry.path, Execute := body }

/-- Go: the assignment `templates[path] = t` on a map. -/
def mapInsert (templates : List (String × Template)) (path : String) (t : Template) :
    List (String × Template) :=
  match templates with
  | [] => [(path, t)]
  | (k, v) :: rest => if k = path then (path, t) :: rest else (k, v) :: mapInsert rest path t

/-- Go: `initChartTemplates`, as a walk over the entries of the embedded filesystem:
the callback is run on each entry and the walk stops at its first error. -/
def initChartTemplatesFrom (templates : List (String × Template)) :
    List EmbedEntry → Except GoError (List (String × Template))
  | [] => .ok templates
  | entry :: rest =>
    match entry.walkErr with
    | some err => .error (.wrapped "error walking chart\x27s assets: " err)
    | none =>
      if !entry.isDir && strings.HasSuffix entry.path TemplateExtension then
        match ParseFS entry with
        | .error err =>
          .error (.wrapped ("error parsing template for the file " ++ entry.path ++ ": ") err)
        | .ok t => initChartTemplatesFrom (mapInsert templates entry.path t) rest
      else initChartTemplatesFrom templates rest

/-- Go: `initChartTemplates`. -/
def initChartTemplates (chart : List EmbedEntry) : Except GoError (List (String × Template)) :=
  initChartTemplatesFrom [] chart

/-- Go: `helm.Activity`. The map `templates` is given by its entries, in the order in
which `range` visits them. -/
structure Activity where
  templates : List (String × Template)

/-- Go: `helm.New`. -/
def New (chart : List EmbedEntry) : Except GoError Activity :=
  match initChartTemplates chart with
  | .error err => .error err
  | .ok templates => .ok { templates := templates }

/-- Everything observable of one run of `CreateChart`: the returned error, the log
records and the filesystem it leaves. -/
structure ChartRun where
  result : Option Error
  logs : List LogRecord
  fs : os.FileSystem

/-- Go: the `templateData` literal of `CreateChart`. -/
def dataOf (param : CreateChartParam) : templateData :=
  { ApplicationName := param.ApplicationName
    ApplicationSlug := param.ApplicationSlug
    ApplicationHostname := param.ApplicationHostname
    ImageRegistry := param.ImageRegistry
    ImageRepository := param.ImageRepository
    ImageTag := param.ImageTag
    KubernetesIngressClass := param.KubernetesIngressClass }

/-- Go: `filepath.Join(param.RepositoryPath, ".onepaas")`. -/
def onepaasPath (param : CreateChartParam) : Path :=
  filepath.Join [filepath.split param.RepositoryPath, [".onepaas"]]

/-- Go: `filepath.Join(onepaasPath, "chart")`. -/
def chartPath (param : CreateChartParam) : Path :=
  filepath.Join [onepaasPath param, ["chart"]]

/-- Go: `filepath.Join(chartPath, "templates")`. -/
def chartTemplatesPath (param : CreateChartParam) : Path :=
  filepath.Join [chartPath param, ["templates"]]

/-- Go: the `target` of one iteration of the loop of `CreateChart`. -/
def target (param : CreateChartParam) (path : String) (tpl : Template) : Path :=
  filepath.Join [onepaasPath param, filepath.Dir path, [strings.TrimSuffix tpl.Name TemplateExtension]]

/-- Go: the loop `for path, tpl := range a.templates` of `CreateChart`. -/
def writeTemplates (param : CreateChartParam) :
    List (String × Template) → os.FileSystem → ChartRun
  | [], fs => { result := none, logs := [], fs := fs }
  | (path, tpl) :: rest, fs =>
    match os.Create fs (target param path tpl) with
    | (fs1, some err) =>
      { result := some (.plain err)
        logs := [logError "Helm:CreateChart unable to create the file"
          [("Error", .goError err), ("Path", .path (target param path tpl))]]
        fs := fs1 }
    | (fs1, none) =>
      match tpl.Execute (dataOf param) with
      | (out, some err) =>
        { result := some (.plain err)
          logs := [logError "Helm:CreateChart unable to execute the template"
            [("Error", .goError err), ("Template", .str tpl.Name)]]
          fs := os.Write fs1 (target param path tpl) out }
      | (out, none) => writeTemplates param rest (os.Write fs1 (target param path tpl) out)

/-- Go: `(*Activity).CreateChart`. -/
def CreateChart (a : Activity) (fs : os.FileSystem) (param : CreateChartParam) : ChartRun :=
  let started := logInfo "Helm:CreateChart activity started" [("Param", .createChartParam param)]
  if os.IsNotExist (os.Stat fs (chartPath param)) then
    match os.MkdirAll fs (chartPath param) with
    | (fs1, some err) =>
      { result := some (.plain err)
        logs := [started, logError "Helm:CreateChart unable to create the directory"
          [("Error", .goError err), ("Path", .path (chartPath param))]]
        fs := fs1 }
    | (fs1, none) =>
      let made : os.FileSystem × Option GoError :=
        if os.IsNotExist (os.Stat fs1 (chartTemplatesPath param)) then
          os.MkdirAll fs1 (chartTemplatesPath param)
        else (fs1, none)
      match made with
      | (fs2, some err) =>
        { result := some (.plain err)
          logs := [started, logError "Helm:CreateChart unable to create the directory"
            [("Error", .goError err), ("Path", .path (chartTemplatesPath param))]]
          fs := fs2 }
      | (fs2, none) =>
        let loop := writeTemplates param a.templates fs2
        { result := loop.result, logs := started :: loop.logs, fs := loop.fs }
  else
    { result := none, logs := [started], fs := fs }

end helm

/-! ## Deployment workflow -/

namespace deployment

/-- Go: `deployment.WorkflowName`. -/
def WorkflowName : String := "DeployApplication"

/-- Go: the fields of `workflow.ActivityOptions` that `Deploy` sets (timeouts in minutes). -/
structure ActivityOptions where
  ScheduleToCloseTimeout : Nat
  StartToCloseTimeout : Nat
  MaximumAttempts : Nat
  deriving DecidableEq, Repr

/-- The parameter object handed to `workflow.ExecuteActivity`. -/
inductive ActivityParam
  | clone (p : CloneParam)
  | buildAndPublish (p : BuildAndPublishParam)
  | createChart (p : CreateChartParam)
  | upgradeInstall (p : UpgradeInstallParam)
  deriving DecidableEq, Repr

/-- One call of `workflow.ExecuteActivity(ctx, name, param)`. -/
structure Invocation where
  options : ActivityOptions
  name : String
  param : ActivityParam
  deriving DecidableEq, Repr

/-- What the four activities do in one run of the workflow: for each of them, what
`f.Get` returns for the activity executed with a given parameter object. -/
structure Env where
  GitClone : CloneParam → Except Error CloneResult
  DockerBuildAndPublish : BuildAndPublishParam → Option Error
  HelmCreateChart : CreateChartParam → Option Error
  HelmUpgradeInstall : UpgradeInstallParam → Option Error

/-- Everything observable of one run of `Deploy`. -/
structure Run where
  result : Option Error
  logs : List LogRecord
  invoked : List Invocation

/-- Go: the `activityOptions` of `Deploy`. -/
def activityOptions : ActivityOptions :=
  { ScheduleToCloseTimeout := 60, StartToCloseTimeout := 10, MaximumAttempts := 1 }

/-- Go: the `gitCloneParam` of `Deploy`. -/
def gitCloneParam (param : DeployParam) : CloneParam :=
  { URL := param.RepositoryURL
    Branch := param.RepositoryBranch
    Tag := param.RepositoryTag
    Ref := param.RepositoryRef }

/-- Go: the `docker.BuildAndPublishParam` literal of `Deploy`; `Dockerfile` is not set. -/
def buildAndPublishParam (param : DeployParam) (gitRepository : CloneResult) : BuildAndPublishParam :=
  { WorkDirectory := gitRepository.RepositoryPath
    Dockerfile := ""
    RegistryAddress := param.RegistryAddress
    RegistryUsername := param.RegistryUsername
    RegistrySecret := param.RegistrySecret
    ImageRepository := param.ImageRepository
    ImageTag := param.ImageTag }

/-- Go: the `createChartParam` of `Deploy`. -/
def createChartParam (param : DeployParam) (gitRepository : CloneResult) : CreateChartParam :=
  { RepositoryPath := gitRepository.RepositoryPath
    ApplicationName := param.ApplicationName
    ApplicationSlug := param.ApplicationSlug
    ApplicationHostname := param.ApplicationHostname
    ImageRegistry := param.RegistryAddress
    ImageRepository := param.ImageRepository
    ImageTag := param.ImageTag
    KubernetesIngressClass := param.KubernetesIngressClass }

/-- Go: the `upgradeInstallParam` of `Deploy`. -/
def upgradeInstallParam (param : DeployParam) (gitRepository : CloneResult) : UpgradeInstallParam :=
  { RepositoryPath := gitRepository.RepositoryPath
    ApplicationSlug := param.ApplicationSlug
    KubernetesCA := param.KubernetesCA
    KubernetesAPIServer := param.KubernetesAPIServer
    KubernetesToken := param.KubernetesToken
    KubernetesNamespace := param.KubernetesNamespace }

/-- Go: `(*Workflow).Deploy`. -/
def Deploy (env : Env) (param : DeployParam) : Run :=
  let started := logInfo "Deploy workflow started" [("Param", .deployParam param)]
  let cloneP := gitCloneParam param
  let i1 : Invocation := { options := activityOptions, name := git.CloneActivityName, param := .clone cloneP }
  match env.GitClone cloneP with
  | .error err =>
    { result := some err
      logs := [started, logError "OnePaaS:Deploy unable to execute Git:Clone activity" [("Error", .error err)]]
      invoked := [i1] }
  | .ok gitRepository =>
    let buildP := buildAndPublishParam param gitRepository
    let i2 : Invocation :=
      { options := activityOptions, name := docker.BuildAndPublishActivityName, param := .buildAndPublish buildP }
    match env.DockerBuildAndPublish buildP with
    | some err =>
      { result := some err
        logs := [started,
          logError "OnePaaS:Deploy unable to execute Docker:BuildAndPublish activity" [("Error", .error err)]]
        invoked := [i1, i2] }
    | none =>
      let chartP := createChartParam param gitRepository
      let i3 : Invocation :=
        { options := activityOptions, name := helm.CreateChartActivityName, param := .createChart chartP }
      match env.HelmCreateChart chartP with
      | some err =>
        { result := some err
          logs := [started,
            logError "OnePaaS:Deploy unable to execute Helm:CreateChart activity" [("Error", .error err)]]
          invoked := [i1, i2, i3] }
      | none =>
        let upgradeP := upgradeInstallParam param gitRepository
        let i4 : Invocation :=
          { options := activityOptions, name := helm.UpgradeInstallActivityName, param := .upgradeInstall upgradeP }
        match env.HelmUpgradeInstall upgradeP with
        | some err =>
          { result := some err
            logs := [started,
              logError "OnePaaS:Deploy unable to execute Helm:UpgradeInstall activity" [("Error", .error err)]]
            invoked := [i1, i2, i3, i4] }
        | none =>
          { result := none
            logs := [started]
            invoked := [i1, i2, i3, i4] }

end deployment

/-! ## Vocabulary of the specification -/

/-- The value the specification resolves an input to: the input itself when it is
not empty, the default otherwise. -/
def orDefault (input default : String) : String :=
  if input = "" then default else input

/-- The reference the specification resolves to: first non-empty wins, in the
order branch, tag, raw ref. -/
def firstNonEmptyReference (branch tag ref : String) : String :=
  if branch ≠ "" then "refs/heads/" ++ branch
  else if tag ≠ "" then "refs/tags/" ++ tag
  else ref

/-- The image address a chart denotes by its three image coordinates. -/
def chartImageAddress (p : CreateChartParam) : String :=
  p.ImageRegistry ++ "/" ++ p.ImageRepository ++ ":" ++ p.ImageTag

/-- A path lies under a root when it is the root or continues it after a slash. -/
def liesUnder (path root : String) : Prop :=
  path = root ∨ (root.data ++ ['/']) <+: path.data

instance (path root : String) : Decidable (liesUnder path root) :=
  inferInstanceAs (Decidable (_ ∨ _))

/-- The error `f.Get` returned for an invocation, if any. -/
def deployment.outcome (env : deployment.Env) (i : deployment.Invocation) : Option Error :=
  match i.param with
  | .clone p =>
    match env.GitClone p with
    | .error err => some err
    | .ok _ => none
  | .buildAndPublish p => env.DockerBuildAndPublish p
  | .createChart p => env.HelmCreateChart p
  | .upgradeInstall p => env.HelmUpgradeInstall p

namespace os

/-- Every directory of the first state is the same directory in the second. -/
def DirsKept (fs fs1 : FileSystem) : Prop :=
  ∀ q w, fs q = some (.dir w) → fs1 q = some (.dir w)

end os

namespace helm

/-- The call finds no chart directory and fails while creating it. -/
def chartDirCreationFailed (fs : os.FileSystem) (param : CreateChartParam) : Prop :=
  os.IsNotExist (os.Stat fs (chartPath param)) = true ∧ (os.MkdirAll fs (chartPath param)).2 ≠ none

end helm

namespace filepath

/-- No element is empty, `.` or `..`. -/
def Plain (l : List String) : Prop :=
  ∀ c ∈ l, c ≠ "" ∧ c ≠ "." ∧ c ≠ ".."

end filepath

namespace helm

/-- The path the specification gives the output of the asset embedded at `p`: the
repository path, then `.onepaas`, then `p` without the trailing `.gohtml`. -/
def outputPath (param : CreateChartParam) (p : String) : Path :=
  filepath.Join [filepath.split param.RepositoryPath, [".onepaas"],
    filepath.split (strings.TrimSuffix p ".gohtml")]

/-- The paths the two `go:embed` patterns of helm.go select: `chart/*.gohtml` and
`chart/templates/*.gohtml`. -/
def EmbedPattern (p : String) : Prop :=
  ∃ stem : String, '/' ∉ stem.data ∧
    (p = "chart/" ++ stem ++ ".gohtml" ∨ p = "chart/templates/" ++ stem ++ ".gohtml")

end helm

/-- Every entry of the filesystem lies in a directory. -/
def os.FileSystem.WellFormed (fs : os.FileSystem) : Prop :=
  ∀ (q : Path) (c : String), fs (q ++ [c]) ≠ none → ∃ w, fs q = some (.dir w)

/-! ## Inputs of the examples -/

/-- A uuid generator that fails. -/
def envNoUuid : git.Env :=
  { NewRandom := .error (.lib "entropy source unavailable"), CloneContext := fun _ => none }

/-- The identifier with all bytes zero. -/
def zeroId : uuid.UUID :=
  { bytes := List.replicate 16 0, size := rfl }

/-- A version-4 identifier, as `uuid.NewRandom` returns them (version nibble 4,
variant bits 10): 00000000-0000-4000-8000-000000000000. -/
def idFirstRun : uuid.UUID :=
  { bytes := [0, 0, 0, 0, 0, 0, 0x40, 0, 0x80, 0, 0, 0, 0, 0, 0, 0], size := rfl }

/-- Another version-4 identifier: 11111111-1111-4111-8111-111111111111. -/
def idSecondRun : uuid.UUID :=
  { bytes := [0x11, 0x11, 0x11, 0x11, 0x11, 0x11, 0x41, 0x11, 0x81, 0x11, 0x11, 0x11, 0x11, 0x11,
      0x11, 0x11], size := rfl }

/-- A run that is allocated `idFirstRun` and whose clone succeeds. -/
def envFirstRun : git.Env :=
  { NewRandom := .ok idFirstRun, CloneContext := fun _ => none }

/-- A run that is allocated `idSecondRun` and whose clone succeeds. -/
def envSecondRun : git.Env :=
  { NewRandom := .ok idSecondRun, CloneContext := fun _ => none }

/-- A run that is allocated `idFirstRun` and whose clone fails with a transport error. -/
def envFirstRunCloneFails : git.Env :=
  { NewRandom := .ok idFirstRun, CloneContext := fun _ => some (.lib "transport error") }

/-- A uuid generator that returns `zeroId` and a clone that succeeds. -/
def envZeroId : git.Env :=
  { NewRandom := .ok zeroId, CloneContext := fun _ => none }

/-- The parameters of the repository test `TestClone/NoReferenceSpecified`. -/
def paramNoReference : CloneParam :=
  { URL := "https://github.com/temporalio/temporal.git", Branch := "", Tag := "", Ref := "" }

/-- Clone parameters with all three reference fields set. -/
def paramAllReferences : CloneParam :=
  { URL := "https://example.com/app.git", Branch := "main", Tag := "v1", Ref := "refs/changes/04/691202/5" }

/-- A dagger engine on which every call succeeds. -/
def envEngineOk : docker.Env :=
  { Connect := fun _ => none, Publish := fun _ => none, Close := none }

/-- Build parameters with a registry secret. -/
def paramBuild : BuildAndPublishParam :=
  { WorkDirectory := "/tmp/projects/w", Dockerfile := "", RegistryAddress := "",
    RegistryUsername := "bot", RegistrySecret := "hunter2", ImageRepository := "acme/app",
    ImageTag := "v1" }

/-- A dagger engine on which the release process ends with the given exit code. -/
def envHelmExit (code : Int) : helm.UpgradeEnv :=
  { Connect := fun _ => none, ExitCode := fun _ => .ok code, Close := none }

/-- A dagger engine that cannot be reached. -/
def envHelmDown : helm.UpgradeEnv :=
  { Connect := fun _ => some (.lib "connection refused"), ExitCode := fun _ => .ok 0, Close := none }

/-- Upgrade parameters with a bearer token. -/
def paramUpgrade : UpgradeInstallParam :=
  { RepositoryPath := "/tmp/projects/w", ApplicationSlug := "app", KubernetesCA := "ca",
    KubernetesAPIServer := "https://k8s.example.com", KubernetesToken := "token-1",
    KubernetesNamespace := "default" }

/-- Four activities that all succeed; the clone returns the path `/tmp/projects/w`. -/
def envAllOk : deployment.Env :=
  { GitClone := fun _ => .ok { RepositoryPath := "/tmp/projects/w" }
    DockerBuildAndPublish := fun _ => none
    HelmCreateChart := fun _ => none
    HelmUpgradeInstall := fun _ => none }

/-- Four activities of which the clone fails with a transport error. -/
def envCloneFails : deployment.Env :=
  { envAllOk with GitClone := fun _ => .error (.plain (.lib "transport error")) }

/-- The deployment request of the end-to-end scenario, with the registry address
and the image tag left empty. -/
def paramDeploy : DeployParam :=
  { RepositoryURL := "https://example.com/app.git", RepositoryBranch := "main",
    RepositoryTag := "", RepositoryRef := "", RegistryAddress := "", RegistryUsername := "bot",
    RegistrySecret := "hunter2", ImageRepository := "acme/app", ImageTag := "",
    ApplicationName := "App", ApplicationSlug := "app", ApplicationHostname := "app.example.com",
    KubernetesIngressClass := "nginx", KubernetesCA := "ca", KubernetesToken := "token-1",
    KubernetesAPIServer := "https://k8s.example.com", KubernetesNamespace := "default" }

/-- A filesystem in which the repository directory `/r` exists and is not writable. -/
def fsReadOnlyRepo : os.FileSystem :=
  fun q => if q = [] then some (.dir true) else if q = ["r"] then some (.dir false) else none

/-- A filesystem in which the repository directory `/r` exists and is empty. -/
def fsEmptyRepo : os.FileSystem :=
  fun q => if q = [] then some (.dir true) else if q = ["r"] then some (.dir true) else none

/-- Chart parameters for the repository `/r`. -/
def paramChart : CreateChartParam :=
  { RepositoryPath := "/r", ApplicationName := "App", ApplicationSlug := "app",
    ApplicationHostname := "app.example.com", ImageRegistry := "docker.io",
    ImageRepository := "acme/app", ImageTag := "v1", KubernetesIngressClass := "nginx" }

/-- The embedded chart assets of the examples: `chart/Chart.yaml.gohtml` and
`chart/templates/deployment.yaml.gohtml`, below their directories. -/
def chartAssets : List helm.EmbedEntry :=
  [ { path := ".", walkErr := none, isDir := true, parsed := .error (.lib "is a directory") },
    { path := "chart", walkErr := none, isDir := true, parsed := .error (.lib "is a directory") },
    { path := "chart/Chart.yaml.gohtml", walkErr := none, isDir := false,
      parsed := .ok (fun d => ("name: " ++ d.ApplicationSlug, none)) },
    { path := "chart/templates", walkErr := none, isDir := true, parsed := .error (.lib "is a directory") },
    { path := "chart/templates/deployment.yaml.gohtml", walkErr := none, isDir := false,
      parsed := .ok (fun d => ("image: " ++ d.ImageRegistry ++ "/" ++ d.ImageRepository ++ ":" ++ d.ImageTag, none)) } ]

/-- The activity `helm.New` builds from `chartAssets`. -/
def activityChart : helm.Activity :=
  match helm.New chartAssets with
  | .ok a => a
  | .error _ => { templates := [] }

/-- Chart parameters for the repository `/r` with the application slug left empty. -/
def paramChartNoSlug : CreateChartParam :=
  { paramChart with ApplicationSlug := "" }

/-- Embedded chart assets of which `chart/Chart.yaml.gohtml` fails to render when
the application slug is empty. -/
def chartAssetsStrict : List helm.EmbedEntry :=
  [ { path := ".", walkErr := none, isDir := true, parsed := .error (.lib "is a directory") },
    { path := "chart", walkErr := none, isDir := true, parsed := .error (.lib "is a directory") },
    { path := "chart/Chart.yaml.gohtml", walkErr := none, isDir := false,
      parsed := .ok (fun d =>
        if d.ApplicationSlug = "" then ("name: ", some (.lib "template: slug is required"))
        else ("name: " ++ d.ApplicationSlug, none)) },
    { path := "chart/templates", walkErr := none, isDir := true, parsed := .error (.lib "is a directory") },
    { path := "chart/templates/deployment.yaml.gohtml", walkErr := none, isDir := false,
      parsed := .ok (fun d => ("image: " ++ d.ImageRegistry ++ "/" ++ d.ImageRepository ++ ":" ++ d.ImageTag, none)) } ]

/-- The activity `helm.New` builds from `chartAssetsStrict`. -/
def activityStrict : helm.Activity :=
  match helm.New chartAssetsStrict with
  | .ok a => a
  | .error _ => { templates := [] }

/-- A filesystem in which `/r/.onepaas` is a regular file. -/
def fsOnepaasFile : os.FileSystem :=
  fun q =>
    if q = [] then some (.dir true)
    else if q = ["r"] then some (.dir true)
    else if q = ["r", ".onepaas"] then some (.file "")
    else none

/-! ## Theorems -/

/-- C1 (counterexample): with Branch, Tag and Ref all empty, a run in which the uuid
generator fails does not return an error of type ErrNoReferenceSpecified: it
returns the error of the failed generation, whose type is empty. -/
theorem Clone_no_reference_counterexample :
    paramNoReference.Branch = "" ∧ paramNoReference.Tag = "" ∧ paramNoReference.Ref = "" ∧
    (git.Clone envNoUuid paramNoReference).result =
      .error (.application "unable to generate an uuid" "" true
        (some (.lib "entropy source unavailable")) []) ∧
    ¬ ∃ e, (git.Clone envNoUuid paramNoReference).result = .error e ∧
      e.declaredType = some git.ErrorTypeNoReferenceSpecified := by
  refine ⟨rfl, rfl, rfl, rfl, ?_⟩
  rintro ⟨e, he, ht⟩
  have h : e = .application "unable to generate an uuid" "" true
      (some (.lib "entropy source unavailable")) [] := by
    have h2 : (git.Clone envNoUuid paramNoReference).result =
        .error (.application "unable to generate an uuid" "" true
          (some (.lib "entropy source unavailable")) []) := rfl
    rw [h2] at he
    exact (Except.error.inj he).symm
  subst h
  revert ht
  decide

/-- C1 (amended): with Branch, Tag and Ref all empty, Clone never invokes the
underlying clone and fails with a non-retryable application error; that error
is of type ErrNoReferenceSpecified when the identifier was generated, and is
the error of the failed generation (empty type) otherwise. -/
theorem Clone_no_reference (env : git.Env) (param : CloneParam)
    (hB : param.Branch = "") (hT : param.Tag = "") (hR : param.Ref = "") :
    (git.Clone env param).clones = [] ∧
    (git.Clone env param).result =
      (match env.NewRandom with
       | .ok _ => .error (.application "no reference specified" "ErrNoReferenceSpecified" true none [])
       | .error err => .error (.application "unable to generate an uuid" "" true (some err) [])) ∧
    (∃ e, (git.Clone env param).result = .error e ∧ e.retryable = false) := by
  unfold git.Clone
  cases hN : env.NewRandom with
  | error err => simp [temporal.NewNonRetryableApplicationError, Error.retryable]
  | ok id =>
    simp [hB, hT, hR, temporal.NewNonRetryableApplicationError, Error.retryable,
      git.ErrorTypeNoReferenceSpecified]

/-- C1 (witness): the repository test parameters, with a working uuid generator. -/
theorem Clone_no_reference_witness :
    (git.Clone envZeroId paramNoReference).clones = [] ∧
    (git.Clone envZeroId paramNoReference).result =
      .error (.application "no reference specified" "ErrNoReferenceSpecified" true none []) :=
  ⟨(Clone_no_reference envZeroId paramNoReference rfl rfl rfl).1,
   (Clone_no_reference envZeroId paramNoReference rfl rfl rfl).2.1⟩

/-- C2: with at least one of Branch, Tag, Ref non-empty, Clone issues exactly one
clone once the identifier is generated (none when generation fails), and its
reference is refs/heads/Branch if Branch is non-empty, else refs/tags/Tag if
Tag is non-empty, else Ref verbatim; fields of lower priority than the first
non-empty one do not change the clone request. -/
theorem Clone_reference_priority (env : git.Env) (param : CloneParam)
    (h : param.Branch ≠ "" ∨ param.Tag ≠ "" ∨ param.Ref ≠ "") :
    (git.Clone env param).clones =
      (match env.NewRandom with
       | .error _ => []
       | .ok id =>
         [{ storerRoot := git.gitRoot id
            worktreeRoot := git.worktreeRoot id
            options :=
              { URL := param.URL
                Depth := 1
                ReferenceName := firstNonEmptyReference param.Branch param.Tag param.Ref
                SingleBranch := true } }]) ∧
    (param.Branch ≠ "" → ∀ tag ref : String,
      (git.Clone env { param with Tag := tag, Ref := ref }).clones = (git.Clone env param).clones) ∧
    (param.Branch = "" → param.Tag ≠ "" → ∀ ref : String,
      (git.Clone env { param with Ref := ref }).clones = (git.Clone env param).clones) := by
  refine ⟨?_, ?_, ?_⟩
  · unfold git.Clone firstNonEmptyReference
    cases hN : env.NewRandom with
    | error err => rfl
    | ok id =>
      by_cases hB : param.Branch = ""
      · by_cases hT : param.Tag = ""
        · have hR : param.Ref ≠ "" := by
            rcases h with h | h | h
            · exact absurd hB h
            · exact absurd hT h
            · exact h
          simp only [hB, hT, hR, ne_eq, not_true_eq_false, not_false_eq_true, if_true, if_false]
          cases env.CloneContext _ <;> rfl
        · simp only [hB, hT, ne_eq, not_true_eq_false, not_false_eq_true, if_true, if_false]
          cases env.CloneContext _ <;> rfl
      · simp only [hB, ne_eq, not_false_eq_true, if_true]
        cases env.CloneContext _ <;> rfl
  · intro hB tag ref
    unfold git.Clone
    cases hN : env.NewRandom with
    | error err => rfl
    | ok id =>
      simp only [hB, ne_eq, not_false_eq_true, if_true]
      cases env.CloneContext _ <;> rfl
  · intro hB hT ref
    unfold git.Clone
    cases hN : env.NewRandom with
    | error err => rfl
    | ok id =>
      simp only [hB, hT, ne_eq, not_true_eq_false, not_false_eq_true, if_true, if_false]
      cases env.CloneContext _ <;> rfl

/-- C2 (witness): with all three fields set, the branch reference is cloned. -/
theorem Clone_reference_priority_witness :
    (paramAllReferences.Branch ≠ "" ∨ paramAllReferences.Tag ≠ "" ∨ paramAllReferences.Ref ≠ "") ∧
    (git.Clone envZeroId paramAllReferences).clones.map (fun c => c.options.ReferenceName) =
      ["refs/heads/main"] := by
  refine ⟨Or.inl (by decide), ?_⟩
  rw [(Clone_reference_priority envZeroId paramAllReferences (Or.inl (by decide))).1]
  decide

/-- C3: BuildAndPublish sends the engine exactly one build-and-publish request when
the connection is established (none otherwise); the request builds with
Dockerfile d, authenticates against registry r and publishes to r/repository:t,
where d, r, t are the inputs when non-empty and ./Dockerfile, docker.io, latest
otherwise. With an empty registry, repository acme/app and tag v1 the address
is docker.io/acme/app:v1. -/
theorem BuildAndPublish_request (env : docker.Env) (param : BuildAndPublishParam) :
    (docker.BuildAndPublish env param).published =
      (match env.Connect param.WorkDirectory with
       | some _ => []
       | none =>
         [{ workdir := param.WorkDirectory
            directory := "."
            dockerfile := orDefault param.Dockerfile "./Dockerfile"
            authAddress := orDefault param.RegistryAddress "docker.io"
            authUsername := param.RegistryUsername
            secretName := "registrySecret"
            secretValue := param.RegistrySecret
            address := orDefault param.RegistryAddress "docker.io" ++ "/" ++ param.ImageRepository
              ++ ":" ++ orDefault param.ImageTag "latest" }]) ∧
    docker.publishAddress (docker.resolveDefaults
      { param with RegistryAddress := "", ImageRepository := "acme/app", ImageTag := "v1" }) =
      "docker.io/acme/app:v1" := by
  constructor
  · unfold docker.BuildAndPublish
    cases hC : env.Connect param.WorkDirectory with
    | some err => rfl
    | none =>
      have hreq : ∀ r : docker.Run, r.published = [
          { workdir := (docker.resolveDefaults param).WorkDirectory
            directory := "."
            dockerfile := (docker.resolveDefaults param).Dockerfile
            authAddress := (docker.resolveDefaults param).RegistryAddress
            authUsername := (docker.resolveDefaults param).RegistryUsername
            secretName := "registrySecret"
            secretValue := (docker.resolveDefaults param).RegistrySecret
            address := docker.publishAddress (docker.resolveDefaults param) }] →
          r.published = [
          { workdir := param.WorkDirectory
            directory := "."
            dockerfile := orDefault param.Dockerfile "./Dockerfile"
            authAddress := orDefault param.RegistryAddress "docker.io"
            authUsername := param.RegistryUsername
            secretName := "registrySecret"
            secretValue := param.RegistrySecret
            address := orDefault param.RegistryAddress "docker.io" ++ "/" ++ param.ImageRepository
              ++ ":" ++ orDefault param.ImageTag "latest" }] := by
        intro r hr
        rw [hr]
        unfold docker.resolveDefaults docker.publishAddress orDefault docker.DefaultDockerfilePath
          docker.DefaultRegistryAddress docker.DefaultImageTag
        by_cases h1 : param.Dockerfile = "" <;> by_cases h2 : param.RegistryAddress = "" <;>
          by_cases h3 : param.ImageTag = "" <;> simp [h1, h2, h3]
      apply hreq
      dsimp only
      split <;> rfl
  · unfold docker.resolveDefaults docker.publishAddress docker.DefaultRegistryAddress
    by_cases h1 : param.Dockerfile = "" <;> simp [h1]

/-- C3 (witness): empty Dockerfile and registry, repository acme/app, tag v1. -/
theorem BuildAndPublish_request_witness :
    (docker.BuildAndPublish envEngineOk paramBuild).published.map
        (fun r => (r.dockerfile, r.authAddress, r.address)) =
      [("./Dockerfile", "docker.io", "docker.io/acme/app:v1")] := by
  rw [(BuildAndPublish_request envEngineOk paramBuild).1]
  decide

/-- C5: the result of UpgradeInstall is a function of the launch outcome and of the
exit code only: a failed launch or an exit code that could not be obtained
returns that error unmodified (retryable, not of type ErrHelmUpgradeFailed);
exit code 0 returns success; any other exit code n returns a non-retryable
application error of type ErrHelmUpgradeFailed with details ("ExitCode", n). -/
theorem UpgradeInstall_result (env : helm.UpgradeEnv) (param : UpgradeInstallParam) :
    (helm.UpgradeInstall env param).result =
      (match env.Connect param.RepositoryPath with
       | some err => some (.plain err)
       | none =>
         match env.ExitCode { workdir := param.RepositoryPath, steps := helm.helmImg param } with
         | .error err => some (.plain err)
         | .ok n =>
           if n = 0 then none
           else some (.application "the Helm command returned non-zero exit code"
             "ErrHelmUpgradeFailed" true none [.str "ExitCode", .int n])) ∧
    (∀ err : GoError, (Error.plain err).retryable = true ∧
      (Error.plain err).declaredType ≠ some helm.ErrorTypeHelmUpgradeFailed) ∧
    (∀ n : Int,
      (Error.application "the Helm command returned non-zero exit code"
        "ErrHelmUpgradeFailed" true none [.str "ExitCode", .int n]).retryable = false ∧
      (Error.application "the Helm command returned non-zero exit code"
        "ErrHelmUpgradeFailed" true none [.str "ExitCode", .int n]).declaredType =
        some helm.ErrorTypeHelmUpgradeFailed ∧
      (Error.application "the Helm command returned non-zero exit code"
        "ErrHelmUpgradeFailed" true none [.str "ExitCode", .int n]).details =
        [.str "ExitCode", .int n]) := by
  refine ⟨?_, ?_, ?_⟩
  · unfold helm.UpgradeInstall
    cases hC : env.Connect param.RepositoryPath with
    | some err => rfl
    | none =>
      simp only
      cases hE : env.ExitCode { workdir := param.RepositoryPath, steps := helm.helmImg param } with
      | error err => rfl
      | ok n =>
        by_cases hn : n = 0
        · simp [hn]
        · simp [hn, temporal.NewNonRetryableApplicationError, helm.ErrorTypeHelmUpgradeFailed]
  · intro err
    exact ⟨rfl, by simp [Error.declaredType]⟩
  · intro n
    exact ⟨rfl, rfl, rfl⟩

/-- C5 (witness): exit code 1 gives the non-retryable failure carrying ExitCode 1,
exit code 0 gives success, and an engine that cannot be reached gives its own
error. -/
theorem UpgradeInstall_result_witness :
    (helm.UpgradeInstall (envHelmExit 1) paramUpgrade).result =
      some (.application "the Helm command returned non-zero exit code" "ErrHelmUpgradeFailed"
        true none [.str "ExitCode", .int 1]) ∧
    (helm.UpgradeInstall (envHelmExit 0) paramUpgrade).result = none ∧
    (helm.UpgradeInstall envHelmDown paramUpgrade).result =
      some (.plain (.lib "connection refused")) :=
  ⟨(UpgradeInstall_result (envHelmExit 1) paramUpgrade).1.trans (by decide),
   (UpgradeInstall_result (envHelmExit 0) paramUpgrade).1.trans (by decide),
   (UpgradeInstall_result envHelmDown paramUpgrade).1.trans (by decide)⟩

/-- C6: the activities Deploy invokes are a prefix of GitClone,
DockerBuildAndPublish, HelmCreateChart, HelmUpgradeInstall, each at most once
and at least the first; every invoked activity but the last succeeded; Deploy
returns what the last invoked activity returned, unmodified; and Deploy
returns success exactly when all four were invoked and all succeeded. -/
theorem Deploy_sequence (env : deployment.Env) (param : DeployParam) :
    (deployment.Deploy env param).invoked.map (fun i => i.name) <+:
      ["GitClone", "DockerBuildAndPublish", "HelmCreateChart", "HelmUpgradeInstall"] ∧
    ((deployment.Deploy env param).invoked.map (fun i => i.name)).Nodup ∧
    (deployment.Deploy env param).invoked ≠ [] ∧
    (∀ i ∈ (deployment.Deploy env param).invoked.dropLast, deployment.outcome env i = none) ∧
    (deployment.Deploy env param).result =
      (deployment.Deploy env param).invoked.getLast?.bind (deployment.outcome env) ∧
    ((deployment.Deploy env param).result = none ↔
      ((deployment.Deploy env param).invoked.length = 4 ∧
        ∀ i ∈ (deployment.Deploy env param).invoked, deployment.outcome env i = none)) := by
  unfold deployment.Deploy
  cases h1 : env.GitClone (deployment.gitCloneParam param) with
  | error err =>
    simp [deployment.outcome, h1, git.CloneActivityName]
  | ok gitRepository =>
    cases h2 : env.DockerBuildAndPublish (deployment.buildAndPublishParam param gitRepository) with
    | some err =>
      simp [deployment.outcome, h1, h2, git.CloneActivityName, docker.BuildAndPublishActivityName]
    | none =>
      cases h3 : env.HelmCreateChart (deployment.createChartParam param gitRepository) with
      | some err =>
        simp [deployment.outcome, h1, h2, h3, git.CloneActivityName,
          docker.BuildAndPublishActivityName, helm.CreateChartActivityName]
      | none =>
        cases h4 : env.HelmUpgradeInstall (deployment.upgradeInstallParam param gitRepository) with
        | some err =>
          simp [deployment.outcome, h1, h2, h3, h4, git.CloneActivityName,
            docker.BuildAndPublishActivityName, helm.CreateChartActivityName,
            helm.UpgradeInstallActivityName]
        | none =>
          simp [deployment.outcome, h1, h2, h3, h4, git.CloneActivityName,
            docker.BuildAndPublishActivityName, helm.CreateChartActivityName,
            helm.UpgradeInstallActivityName]

/-- C6 (witness): when the clone fails with a transport error, only GitClone is
invoked and Deploy returns that error; when all four succeed, all four are
invoked in order and Deploy returns success. -/
theorem Deploy_sequence_witness :
    (deployment.Deploy envCloneFails paramDeploy).invoked.map (fun i => i.name) = ["GitClone"] ∧
    (deployment.Deploy envCloneFails paramDeploy).result =
      (deployment.Deploy envCloneFails paramDeploy).invoked.getLast?.bind
        (deployment.outcome envCloneFails) ∧
    (deployment.Deploy envCloneFails paramDeploy).result = some (.plain (.lib "transport error")) ∧
    (deployment.Deploy envAllOk paramDeploy).invoked.map (fun i => i.name) =
      ["GitClone", "DockerBuildAndPublish", "HelmCreateChart", "HelmUpgradeInstall"] ∧
    ((deployment.Deploy envAllOk paramDeploy).result = none ↔
      ((deployment.Deploy envAllOk paramDeploy).invoked.length = 4 ∧
        ∀ i ∈ (deployment.Deploy envAllOk paramDeploy).invoked,
          deployment.outcome envAllOk i = none)) :=
  ⟨by decide, (Deploy_sequence envCloneFails paramDeploy).2.2.2.2.1, by decide, by decide,
   (Deploy_sequence envAllOk paramDeploy).2.2.2.2.2⟩

/-- C7 (failing input): two runs of BuildAndPublish whose parameters differ only in
RegistrySecret, and two runs of UpgradeInstall whose parameters differ only in
KubernetesToken, on the same engine behaviour, emit different log records:
the first record of each activity carries the whole parameter object, the
secret included. -/
theorem secret_in_log_records :
    (docker.BuildAndPublish envEngineOk paramBuild).logs =
      [ { level := .Info, msg := "Docker:BuildAndPublish activity started",
          fields := [("Param", .buildAndPublishParam
            { WorkDirectory := "/tmp/projects/w", Dockerfile := "", RegistryAddress := "",
              RegistryUsername := "bot", RegistrySecret := "hunter2",
              ImageRepository := "acme/app", ImageTag := "v1" })] },
        { level := .Info, msg := "Docker:BuildAndPublish activity was executed successfully.",
          fields := [] } ] ∧
    (docker.BuildAndPublish envEngineOk paramBuild).logs ≠
      (docker.BuildAndPublish envEngineOk { paramBuild with RegistrySecret := "hunter3" }).logs ∧
    (helm.UpgradeInstall (envHelmExit 0) paramUpgrade).logs =
      [ { level := .Info, msg := "Helm:UpgradeInstall activity started",
          fields := [("Param", .upgradeInstallParam
            { RepositoryPath := "/tmp/projects/w", ApplicationSlug := "app", KubernetesCA := "ca",
              KubernetesAPIServer := "https://k8s.example.com", KubernetesToken := "token-1",
              KubernetesNamespace := "default" })] } ] ∧
    (helm.UpgradeInstall (envHelmExit 0) paramUpgrade).logs ≠
      (helm.UpgradeInstall (envHelmExit 0) { paramUpgrade with KubernetesToken := "token-2" }).logs := by
  refine ⟨by decide, by decide, by decide, by decide⟩

/-- When RegistryAddress and ImageTag are both set, the coordinates Deploy hands to
CreateChart denote the address BuildAndPublish publishes to. -/
theorem chart_image_matches_when_set (param : DeployParam) (r : CloneResult)
    (hreg : param.RegistryAddress ≠ "") (htag : param.ImageTag ≠ "") :
    chartImageAddress (deployment.createChartParam param r) =
      docker.publishAddress (docker.resolveDefaults (deployment.buildAndPublishParam param r)) := by
  simp [chartImageAddress, deployment.createChartParam, deployment.buildAndPublishParam,
    docker.publishAddress, docker.resolveDefaults, hreg, htag]

/-- C10 (failing input): for a deployment request with empty RegistryAddress and
ImageTag, Deploy hands BuildAndPublish parameters whose publish address is
docker.io/acme/app:latest, and hands CreateChart the coordinates of the
address /acme/app: (the empty inputs, without the defaults). -/
theorem chart_image_differs_from_published :
    (deployment.Deploy envAllOk paramDeploy).invoked.map (fun i => i.param) =
      [ .clone (deployment.gitCloneParam paramDeploy),
        .buildAndPublish (deployment.buildAndPublishParam paramDeploy { RepositoryPath := "/tmp/projects/w" }),
        .createChart (deployment.createChartParam paramDeploy { RepositoryPath := "/tmp/projects/w" }),
        .upgradeInstall (deployment.upgradeInstallParam paramDeploy { RepositoryPath := "/tmp/projects/w" }) ] ∧
    (docker.BuildAndPublish envEngineOk
      (deployment.buildAndPublishParam paramDeploy { RepositoryPath := "/tmp/projects/w" })).published.map
        (fun r => r.address) = ["docker.io/acme/app:latest"] ∧
    chartImageAddress (deployment.createChartParam paramDeploy { RepositoryPath := "/tmp/projects/w" }) =
      "/acme/app:" ∧
    (deployment.createChartParam paramDeploy { RepositoryPath := "/tmp/projects/w" }).ImageRegistry = "" ∧
    (deployment.createChartParam paramDeploy { RepositoryPath := "/tmp/projects/w" }).ImageTag = "" := by
  refine ⟨by decide, by decide, by decide, by decide, by decide⟩

/-! ### Workspaces -/

namespace uuid

theorem hexDigit_inj : ∀ a b : Fin 16, hexDigit a.val = hexDigit b.val → a = b := by decide

theorem hexDigit_byte (b c : Fin 256) (hhi : hexDigit (b.val / 16) = hexDigit (c.val / 16))
    (hlo : hexDigit (b.val % 16) = hexDigit (c.val % 16)) : b = c := by
  have h1 := hexDigit_inj ⟨b.val / 16, by omega⟩ ⟨c.val / 16, by omega⟩ hhi
  have h2 := hexDigit_inj ⟨b.val % 16, by omega⟩ ⟨c.val % 16, by omega⟩ hlo
  have h1v : b.val / 16 = c.val / 16 := congrArg Fin.val h1
  have h2v : b.val % 16 = c.val % 16 := congrArg Fin.val h2
  apply Fin.ext
  omega

theorem hexEncode_length (l : List (Fin 256)) : (hexEncode l).length = 2 * l.length := by
  induction l with
  | nil => rfl
  | cons b bs ih => simp [hexEncode, ih]; omega

theorem hexEncode_inj : ∀ l m : List (Fin 256), hexEncode l = hexEncode m → l = m
  | [], [], _ => rfl
  | [], _ :: _, h => by simp [hexEncode] at h
  | _ :: _, [], h => by simp [hexEncode] at h
  | b :: bs, c :: cs, h => by
    simp only [hexEncode, List.cons.injEq] at h
    rw [hexDigit_byte b c h.1 h.2.1, hexEncode_inj bs cs h.2.2]

theorem encodeHex_length (u : UUID) : (encodeHex u).length = 36 := by
  have h := u.size
  simp [encodeHex, hexEncode_length, List.length_take, List.length_drop, h]

theorem bytes_split (l : List (Fin 256)) :
    l = l.take 4 ++ ((l.drop 4).take 2 ++ ((l.drop 6).take 2 ++ ((l.drop 8).take 2 ++ l.drop 10))) := by
  have h1 : (l.drop 8).take 2 ++ l.drop 10 = l.drop 8 := by
    have := List.take_append_drop 2 (l.drop 8)
    simpa [List.drop_drop] using this
  have h2 : (l.drop 6).take 2 ++ l.drop 8 = l.drop 6 := by
    have := List.take_append_drop 2 (l.drop 6)
    simpa [List.drop_drop] using this
  have h3 : (l.drop 4).take 2 ++ l.drop 6 = l.drop 4 := by
    have := List.take_append_drop 2 (l.drop 4)
    simpa [List.drop_drop] using this
  rw [h1, h2, h3, List.take_append_drop]

theorem encodeHex_inj (u v : UUID) (h : encodeHex u = encodeHex v) : u = v := by
  have hu := u.size
  have hv := v.size
  unfold encodeHex at h
  have l1 : (hexEncode (u.bytes.take 4)).length = (hexEncode (v.bytes.take 4)).length := by
    simp [hexEncode_length, List.length_take, hu, hv]
  obtain ⟨e1, h⟩ := List.append_inj h l1
  simp only [List.cons.injEq, true_and] at h
  have l2 : (hexEncode ((u.bytes.drop 4).take 2)).length = (hexEncode ((v.bytes.drop 4).take 2)).length := by
    simp [hexEncode_length, List.length_take, List.length_drop, hu, hv]
  obtain ⟨e2, h⟩ := List.append_inj h l2
  simp only [List.cons.injEq, true_and] at h
  have l3 : (hexEncode ((u.bytes.drop 6).take 2)).length = (hexEncode ((v.bytes.drop 6).take 2)).length := by
    simp [hexEncode_length, List.length_take, List.length_drop, hu, hv]
  obtain ⟨e3, h⟩ := List.append_inj h l3
  simp only [List.cons.injEq, true_and] at h
  have l4 : (hexEncode ((u.bytes.drop 8).take 2)).length = (hexEncode ((v.bytes.drop 8).take 2)).length := by
    simp [hexEncode_length, List.length_take, List.length_drop, hu, hv]
  obtain ⟨e4, h⟩ := List.append_inj h l4
  simp only [List.cons.injEq, true_and] at h
  have b : u.bytes = v.bytes := by
    rw [bytes_split u.bytes, bytes_split v.bytes, hexEncode_inj _ _ e1, hexEncode_inj _ _ e2,
      hexEncode_inj _ _ e3, hexEncode_inj _ _ e4, hexEncode_inj _ _ h]
  cases u; cases v; simp_all

end uuid

theorem worktreeRoot_data (u : uuid.UUID) :
    (git.worktreeRoot u).data = "/tmp/projects/".data ++ uuid.encodeHex u := by
  simp [git.worktreeRoot, git.chrootRoot, git.ProjectsBaseDir, uuid.UUID.String, String.data_append]

theorem gitRoot_data (u : uuid.UUID) :
    (git.gitRoot u).data = (git.worktreeRoot u).data ++ "/.git".data := by
  simp [git.gitRoot, git.worktreeRoot, git.chrootRoot, git.ProjectsBaseDir, uuid.UUID.String,
    String.data_append]

theorem liesUnder_data {path root : String} (h : liesUnder path root) :
    ∃ rest, path.data = root.data ++ rest := by
  rcases h with h | ⟨t, ht⟩
  · exact ⟨[], by simp [h]⟩
  · exact ⟨'/' :: t, by simp [← ht]⟩

theorem worktreeRoot_inj_of_data {u v : uuid.UUID} {r s : List Char}
    (h : (git.worktreeRoot u).data ++ r = (git.worktreeRoot v).data ++ s) : u = v := by
  rw [worktreeRoot_data, worktreeRoot_data] at h
  have hl : ("/tmp/projects/".data ++ uuid.encodeHex u).length =
      ("/tmp/projects/".data ++ uuid.encodeHex v).length := by
    simp [uuid.encodeHex_length]
  have h2 := (List.append_inj h hl).1
  exact uuid.encodeHex_inj u v (List.append_cancel_left h2)

namespace git

theorem Clone_with_reference (env : Env) (param : CloneParam) (id : uuid.UUID)
    (hN : env.NewRandom = .ok id)
    (h : param.Branch ≠ "" ∨ param.Tag ≠ "" ∨ param.Ref ≠ "") :
    (Clone env param).clones =
      [{ storerRoot := gitRoot id
         worktreeRoot := worktreeRoot id
         options :=
           { URL := param.URL
             Depth := 1
             ReferenceName := firstNonEmptyReference param.Branch param.Tag param.Ref
             SingleBranch := true } }] ∧
    (Clone env param).result =
      (match env.CloneContext
          { storerRoot := gitRoot id
            worktreeRoot := worktreeRoot id
            options :=
              { URL := param.URL
                Depth := 1
                ReferenceName := firstNonEmptyReference param.Branch param.Tag param.Ref
                SingleBranch := true } } with
       | some err => .error (.plain err)
       | none => .ok { RepositoryPath := worktreeRoot id }) := by
  have hpath : ProjectsBaseDir ++ "/" ++ id.String = worktreeRoot id := by
    apply String.ext
    simp [worktreeRoot, chrootRoot, String.data_append]
  unfold Clone firstNonEmptyReference plumbing.NewBranchReferenceName
    plumbing.NewTagReferenceName plumbing.refHeadPrefix plumbing.refTagPrefix
  rw [hN]
  by_cases hB : param.Branch = ""
  · by_cases hT : param.Tag = ""
    · have hR : param.Ref ≠ "" := by
        rcases h with h | h | h
        · exact absurd hB h
        · exact absurd hT h
        · exact h
      simp only [hB, hT, hR, ne_eq, not_true_eq_false, not_false_eq_true, if_true, if_false]
      cases env.CloneContext _ <;> exact ⟨rfl, by simp [hpath]⟩
    · simp only [hB, hT, ne_eq, not_true_eq_false, not_false_eq_true, if_true, if_false]
      cases env.CloneContext _ <;> exact ⟨rfl, by simp [hpath]⟩
  · simp only [hB, ne_eq, not_false_eq_true, if_true]
    cases env.CloneContext _ <;> exact ⟨rfl, by simp [hpath]⟩

theorem Clone_clones_roots (env : Env) (param : CloneParam) (id : uuid.UUID)
    (hN : env.NewRandom = .ok id) :
    ∀ c ∈ (Clone env param).clones, c.worktreeRoot = worktreeRoot id ∧ c.storerRoot = gitRoot id := by
  by_cases h : param.Branch ≠ "" ∨ param.Tag ≠ "" ∨ param.Ref ≠ ""
  · rw [(Clone_with_reference env param id hN h).1]
    intro c hc
    simp only [List.mem_singleton] at hc
    rw [hc]
    exact ⟨rfl, rfl⟩
  · push_neg at h
    have : (Clone env param).clones = [] := by
      unfold Clone
      rw [hN]
      simp [h.1, h.2.1, h.2.2]
    rw [this]
    intro c hc
    cases hc

end git

/-- C9: the run that was allocated identifier u has working-tree root
/tmp/projects/u and object-store root /tmp/projects/u/.git, nested under the
working tree. Every run of Clone that was allocated u, whether its clone then
succeeds or fails, hands exactly these two roots to the clone (one clone call
when a reference is given, none otherwise), fails with the error of the clone
when the clone fails, and otherwise returns the working-tree root as
RepositoryPath. For identifiers u and v that differ, the working-tree roots
(hence the returned RepositoryPaths) differ and no path under the
working-tree or object-store root of u lies under the working-tree root of v. -/
theorem workspaces_disjoint (u v : uuid.UUID) :
    git.worktreeRoot u = "/tmp/projects/" ++ u.String ∧
    git.gitRoot u = "/tmp/projects/" ++ u.String ++ "/.git" ∧
    liesUnder (git.gitRoot u) (git.worktreeRoot u) ∧
    (∀ (env : git.Env) (param : CloneParam), env.NewRandom = .ok u →
      (∀ c ∈ (git.Clone env param).clones,
        c.worktreeRoot = git.worktreeRoot u ∧ c.storerRoot = git.gitRoot u) ∧
      (param.Branch ≠ "" ∨ param.Tag ≠ "" ∨ param.Ref ≠ "" →
        (git.Clone env param).clones.map (fun c => (c.worktreeRoot, c.storerRoot)) =
          [(git.worktreeRoot u, git.gitRoot u)] ∧
        (git.Clone env param).result =
          (match env.CloneContext
              { storerRoot := git.gitRoot u
                worktreeRoot := git.worktreeRoot u
                options :=
                  { URL := param.URL
                    Depth := 1
                    ReferenceName := firstNonEmptyReference param.Branch param.Tag param.Ref
                    SingleBranch := true } } with
           | some err => .error (.plain err)
           | none => .ok { RepositoryPath := git.worktreeRoot u })) ∧
      (∀ r : CloneResult, (git.Clone env param).result = .ok r →
        r.RepositoryPath = git.worktreeRoot u ∧
        (git.Clone env param).clones.map (fun c => (c.worktreeRoot, c.storerRoot)) =
          [(git.worktreeRoot u, git.gitRoot u)])) ∧
    (u ≠ v →
      git.worktreeRoot u ≠ git.worktreeRoot v ∧
      (∀ (env1 env2 : git.Env) (param : CloneParam) (r1 r2 : CloneResult),
        env1.NewRandom = .ok u → env2.NewRandom = .ok v →
        (git.Clone env1 param).result = .ok r1 → (git.Clone env2 param).result = .ok r2 →
        r1.RepositoryPath ≠ r2.RepositoryPath) ∧
      (∀ path : String, liesUnder path (git.worktreeRoot u) ∨ liesUnder path (git.gitRoot u) →
        ¬ liesUnder path (git.worktreeRoot v))) := by
  have hrun : ∀ (w : uuid.UUID) (env : git.Env) (param : CloneParam) (r : CloneResult),
      env.NewRandom = .ok w → (git.Clone env param).result = .ok r →
        r.RepositoryPath = git.worktreeRoot w ∧
        (git.Clone env param).clones.map (fun c => (c.worktreeRoot, c.storerRoot)) =
          [(git.worktreeRoot w, git.gitRoot w)] := by
    intro w env param r hN
    unfold git.Clone
    rw [hN]
    dsimp only
    have hpath : git.ProjectsBaseDir ++ "/" ++ w.String = git.worktreeRoot w := by
      apply String.ext
      simp [git.worktreeRoot, git.chrootRoot, String.data_append]
    split_ifs <;> first
      | (intro h; cases h)
      | (split <;> intro h <;> first
          | (cases h; exact ⟨hpath, rfl⟩)
          | cases h)
  refine ⟨?_, ?_, ?_, ?_, ?_⟩
  · apply String.ext
    simp [git.worktreeRoot, git.chrootRoot, git.ProjectsBaseDir, String.data_append]
  · apply String.ext
    simp [git.gitRoot, git.chrootRoot, git.ProjectsBaseDir, String.data_append]
  · right
    rw [gitRoot_data]
    exact ⟨".git".data, by simp⟩
  · intro env param hN
    refine ⟨git.Clone_clones_roots env param u hN, ?_, fun r hr => hrun u env param r hN hr⟩
    intro href
    obtain ⟨hc, hr⟩ := git.Clone_with_reference env param u hN href
    exact ⟨by rw [hc]; rfl, hr⟩
  · intro huv
    have hne : git.worktreeRoot u ≠ git.worktreeRoot v := by
      intro h
      apply huv
      have h2 : (git.worktreeRoot u).data ++ [] = (git.worktreeRoot v).data ++ [] := by rw [h]
      exact worktreeRoot_inj_of_data h2
    refine ⟨hne, ?_, ?_⟩
    · intro env1 env2 param r1 r2 h1 h2 hr1 hr2 heq
      rw [(hrun u env1 param r1 h1 hr1).1, (hrun v env2 param r2 h2 hr2).1] at heq
      exact hne heq
    · intro path hu hv
      apply huv
      obtain ⟨s, hs⟩ := liesUnder_data hv
      rcases hu with hu | hu
      · obtain ⟨r, hr⟩ := liesUnder_data hu
        exact worktreeRoot_inj_of_data (hr.symm.trans hs)
      · obtain ⟨r, hr⟩ := liesUnder_data hu
        rw [gitRoot_data, List.append_assoc] at hr
        exact worktreeRoot_inj_of_data (hr.symm.trans hs)

/-- C9 (witness): two runs of Clone with the same parameters that are allocated two
different version-4 identifiers, and a run whose clone fails: each clone is
handed the roots of its own identifier, the successful runs return different
RepositoryPaths, and a path in the object store of the first run does not lie
under the working tree of the second. -/
theorem workspaces_disjoint_witness :
    idFirstRun ≠ idSecondRun ∧
    (git.Clone envFirstRun paramAllReferences).result =
      .ok { RepositoryPath := "/tmp/projects/00000000-0000-4000-8000-000000000000" } ∧
    (git.Clone envFirstRun paramAllReferences).clones.map (fun c => (c.worktreeRoot, c.storerRoot)) =
      [("/tmp/projects/00000000-0000-4000-8000-000000000000",
        "/tmp/projects/00000000-0000-4000-8000-000000000000/.git")] ∧
    (git.Clone envFirstRunCloneFails paramAllReferences).result =
      .error (.plain (.lib "transport error")) ∧
    (git.Clone envFirstRunCloneFails paramAllReferences).clones.map
        (fun c => (c.worktreeRoot, c.storerRoot)) =
      [("/tmp/projects/00000000-0000-4000-8000-000000000000",
        "/tmp/projects/00000000-0000-4000-8000-000000000000/.git")] ∧
    (git.Clone envSecondRun paramAllReferences).result =
      .ok { RepositoryPath := "/tmp/projects/11111111-1111-4111-8111-111111111111" } ∧
    (∀ r1 r2 : CloneResult, (git.Clone envFirstRun paramAllReferences).result = .ok r1 →
      (git.Clone envSecondRun paramAllReferences).result = .ok r2 →
      r1.RepositoryPath ≠ r2.RepositoryPath) ∧
    ¬ liesUnder "/tmp/projects/00000000-0000-4000-8000-000000000000/.git/HEAD"
      (git.worktreeRoot idSecondRun) := by
  have hne : idFirstRun ≠ idSecondRun := by decide
  have href : paramAllReferences.Branch ≠ "" ∨ paramAllReferences.Tag ≠ "" ∨
      paramAllReferences.Ref ≠ "" := Or.inl (by decide)
  have h1 := ((workspaces_disjoint idFirstRun idSecondRun).2.2.2.1 envFirstRun
    paramAllReferences rfl).2.1 href
  have h1f := ((workspaces_disjoint idFirstRun idSecondRun).2.2.2.1 envFirstRunCloneFails
    paramAllReferences rfl).2.1 href
  have h2 := ((workspaces_disjoint idSecondRun idFirstRun).2.2.2.1 envSecondRun
    paramAllReferences rfl).2.1 href
  have hd := (workspaces_disjoint idFirstRun idSecondRun).2.2.2.2 hne
  refine ⟨hne, ?_, ?_, ?_, ?_, ?_, ?_, ?_⟩
  · rw [h1.2]; rfl
  · rw [h1.1]; decide
  · rw [h1f.2]; rfl
  · rw [h1f.1]; decide
  · rw [h2.2]; rfl
  · intro r1 r2 hr1 hr2
    exact hd.2.1 envFirstRun envSecondRun paramAllReferences r1 r2 rfl rfl hr1 hr2
  · exact hd.2.2 _ (Or.inr (by decide))

/-! ### Filesystem: what the operations keep -/

namespace os

theorem DirsKept.refl (fs : FileSystem) : DirsKept fs fs := fun _ _ h => h

theorem DirsKept.trans {a b c : FileSystem} (h1 : DirsKept a b) (h2 : DirsKept b c) :
    DirsKept a c := fun q w h => h2 q w (h1 q w h)

theorem set_apply (fs : FileSystem) (path q : Path) (n : Node) :
    fs.set path n q = if q = path then some n else fs q := rfl

theorem set_same (fs : FileSystem) (path : Path) (n : Node) : fs.set path n path = some n := by
  simp [set_apply]

theorem set_other (fs : FileSystem) {path q : Path} (n : Node) (h : q ≠ path) :
    fs.set path n q = fs q := by
  simp [set_apply, h]

theorem dirsKept_set (fs : FileSystem) (path : Path) (n : Node)
    (h : ∀ w, fs path ≠ some (.dir w)) : DirsKept fs (fs.set path n) := by
  intro q w hq
  by_cases hqp : q = path
  · subst hqp
    exact absurd hq (h w)
  · rw [set_other fs n hqp]
    exact hq

theorem mkdirFrom_dirsKept (rest : List String) :
    ∀ (fs : FileSystem) (cur : Path), DirsKept fs (mkdirFrom fs cur rest).1 := by
  induction rest with
  | nil =>
    intro fs cur
    unfold mkdirFrom
    split <;> exact DirsKept.refl fs
  | cons c rest ih =>
    intro fs cur
    unfold mkdirFrom
    split
    · split
      · exact ih fs (cur ++ [c])
      · rename_i hnone
        split
        · exact DirsKept.trans (dirsKept_set fs (cur ++ [c]) (.dir true) (by simp [hnone]))
            (ih _ (cur ++ [c]))
        · exact DirsKept.refl fs
    · exact DirsKept.refl fs
    · exact DirsKept.refl fs

theorem MkdirAll_dirsKept (fs : FileSystem) (path : Path) : DirsKept fs (MkdirAll fs path).1 := by
  unfold MkdirAll
  exact mkdirFrom_dirsKept path fs []

theorem Create_dirsKept (fs : FileSystem) (path : Path) : DirsKept fs (Create fs path).1 := by
  unfold Create
  split
  · exact DirsKept.refl fs
  · exact DirsKept.refl fs
  · split
    · exact DirsKept.refl fs
    · split
      · exact DirsKept.refl fs
      · rename_i h
        exact dirsKept_set fs path _ (by simp [h])
      · rename_i h
        split
        · exact dirsKept_set fs path _ (by simp [h])
        · exact DirsKept.refl fs

theorem Write_dirsKept (fs : FileSystem) (path : Path) (out : String) :
    DirsKept fs (Write fs path out) := by
  unfold Write
  split
  · rename_i h
    exact dirsKept_set fs path _ (by simp [h])
  · exact DirsKept.refl fs

theorem lookup_dirsKept {fs fs1 : FileSystem} (h : DirsKept fs fs1) (rest : List String) :
    ∀ (cur : Path) (w : Bool), lookup fs cur rest = .ok (.dir w) →
      lookup fs1 cur rest = .ok (.dir w) := by
  induction rest with
  | nil =>
    intro cur w hl
    unfold lookup at hl ⊢
    cases hc : fs cur with
    | none => simp [hc] at hl
    | some n =>
      simp only [hc, Except.ok.injEq] at hl
      subst hl
      rw [h cur w hc]
  | cons c rest ih =>
    intro cur w hl
    unfold lookup at hl ⊢
    cases hc : fs cur with
    | none => simp [hc] at hl
    | some n =>
      cases n with
      | file content => simp [hc] at hl
      | dir w1 =>
        simp only [hc] at hl
        rw [h cur w1 hc]
        exact ih (cur ++ [c]) w hl

theorem mkdirFrom_ok_lookup (rest : List String) :
    ∀ (fs : FileSystem) (cur : Path), (mkdirFrom fs cur rest).2 = none →
      ∃ w, lookup (mkdirFrom fs cur rest).1 cur rest = .ok (.dir w) := by
  induction rest with
  | nil =>
    intro fs cur hok
    cases hc : fs cur with
    | none => simp [mkdirFrom, hc] at hok
    | some n =>
      cases n with
      | file content => simp [mkdirFrom, hc] at hok
      | dir w => exact ⟨w, by simp [mkdirFrom, lookup, hc]⟩
  | cons c rest ih =>
    intro fs cur hok
    cases hc : fs cur with
    | none => simp [mkdirFrom, hc] at hok
    | some n =>
      cases n with
      | file content => simp [mkdirFrom, hc] at hok
      | dir w =>
        cases hn : fs (cur ++ [c]) with
        | some m =>
          have e : mkdirFrom fs cur (c :: rest) = mkdirFrom fs (cur ++ [c]) rest := by
            simp [mkdirFrom, hc, hn]
          rw [e] at hok ⊢
          obtain ⟨w1, hw1⟩ := ih fs (cur ++ [c]) hok
          refine ⟨w1, ?_⟩
          unfold lookup
          rw [mkdirFrom_dirsKept rest fs (cur ++ [c]) cur w hc]
          exact hw1
        | none =>
          cases w with
          | false => simp [mkdirFrom, hc, hn] at hok
          | true =>
            have e : mkdirFrom fs cur (c :: rest) =
                mkdirFrom (fs.set (cur ++ [c]) (.dir true)) (cur ++ [c]) rest := by
              simp [mkdirFrom, hc, hn]
            rw [e] at hok ⊢
            obtain ⟨w1, hw1⟩ := ih _ (cur ++ [c]) hok
            refine ⟨w1, ?_⟩
            have hcur : (fs.set (cur ++ [c]) (.dir true)) cur = some (.dir true) := by
              rw [set_other fs _ (by simp)]
              exact hc
            unfold lookup
            rw [mkdirFrom_dirsKept rest _ (cur ++ [c]) cur true hcur]
            exact hw1

end os

/-! ### Chart creation -/

namespace helm

theorem writeTemplates_dirsKept (param : CreateChartParam) (l : List (String × Template)) :
    ∀ fs : os.FileSystem, os.DirsKept fs (writeTemplates param l fs).fs := by
  induction l with
  | nil => intro fs; exact os.DirsKept.refl fs
  | cons pt rest ih =>
    intro fs
    obtain ⟨path, tpl⟩ := pt
    have hc := os.Create_dirsKept fs (target param path tpl)
    unfold writeTemplates
    split
    · rename_i fs1 err heq
      rw [heq] at hc
      exact hc
    · rename_i fs1 heq
      rw [heq] at hc
      have hw : ∀ out, os.DirsKept fs (os.Write fs1 (target param path tpl) out) :=
        fun out => os.DirsKept.trans hc (os.Write_dirsKept fs1 _ out)
      split
      · exact hw _
      · exact os.DirsKept.trans (hw _) (ih _)

theorem chartPath_congr {p1 p2 : CreateChartParam} (h : p1.RepositoryPath = p2.RepositoryPath) :
    chartPath p1 = chartPath p2 := by
  unfold chartPath onepaasPath
  rw [h]

theorem CreateChart_skip (a : Activity) (fs : os.FileSystem) (param : CreateChartParam)
    (h : os.IsNotExist (os.Stat fs (chartPath param)) = false) :
    (CreateChart a fs param).result = none ∧ (CreateChart a fs param).fs = fs := by
  unfold CreateChart
  simp [h]

theorem Stat_of_lookup {fs : os.FileSystem} {path : Path} {n : os.Node}
    (h : os.lookup fs [] path = .ok n) : os.Stat fs path = .ok n := by
  unfold os.Stat
  rw [h]

theorem IsNotExist_ok (n : os.Node) : os.IsNotExist (.ok n) = false := rfl

theorem CreateChart_chart_exists (a : Activity) (fs : os.FileSystem) (param : CreateChartParam)
    (hne : os.IsNotExist (os.Stat fs (chartPath param)) = true)
    (hmk : (os.MkdirAll fs (chartPath param)).2 = none) :
    ∃ w, os.Stat (CreateChart a fs param).fs (chartPath param) = .ok (.dir w) := by
  have hmk2 : (os.mkdirFrom fs [] (chartPath param)).2 = none := hmk
  obtain ⟨w, hw⟩ := os.mkdirFrom_ok_lookup (chartPath param) fs [] hmk2
  have hfs1 : (os.MkdirAll fs (chartPath param)) = ((os.mkdirFrom fs [] (chartPath param)).1, none) := by
    unfold os.MkdirAll
    exact Prod.ext rfl hmk2
  refine ⟨w, Stat_of_lookup ?_⟩
  apply os.lookup_dirsKept _ _ _ _ hw
  unfold CreateChart
  simp only [hne, if_true, hfs1]
  split
  · rename_i fs2 err heq
    split_ifs at heq with h2
    · have := os.MkdirAll_dirsKept (os.mkdirFrom fs [] (chartPath param)).1 (chartTemplatesPath param)
      rw [heq] at this
      exact this
    · cases heq
  · rename_i fs2 heq
    have h12 : os.DirsKept (os.mkdirFrom fs [] (chartPath param)).1 fs2 := by
      split_ifs at heq with h2
      · have := os.MkdirAll_dirsKept (os.mkdirFrom fs [] (chartPath param)).1 (chartTemplatesPath param)
        rw [heq] at this
        exact this
      · cases heq
        exact os.DirsKept.refl _
    exact os.DirsKept.trans h12 (writeTemplates_dirsKept param a.templates fs2)

end helm

/-- C4 (counterexample): in a filesystem where the repository directory is not
writable, the first CreateChart call fails while creating the chart directory
(mkdir /r/.onepaas: permission denied) and leaves no chart directory, and so
does the second call made right after it with the same parameters: the second
call does not return success. -/
theorem CreateChart_second_call_counterexample :
    (helm.CreateChart activityChart fsReadOnlyRepo paramChart).result =
      some (.plain (.pathError "mkdir" ["r", ".onepaas"] .EACCES)) ∧
    (helm.CreateChart activityChart fsReadOnlyRepo paramChart).fs ["r", ".onepaas", "chart"] = none ∧
    (helm.CreateChart activityChart
      (helm.CreateChart activityChart fsReadOnlyRepo paramChart).fs paramChart).result =
      some (.plain (.pathError "mkdir" ["r", ".onepaas"] .EACCES)) ∧
    (helm.CreateChart activityChart
      (helm.CreateChart activityChart fsReadOnlyRepo paramChart).fs paramChart).result ≠ none := by
  refine ⟨by decide, by decide, by decide, by decide⟩

/-- C4 (amended): for every filesystem state and every two CreateChart calls made in
succession with the same RepositoryPath (whatever the substitution values and
the order in which the templates are visited), unless the first call failed
while creating the chart directory, the second call returns success and
leaves the filesystem exactly as the first call left it; a first call that
returned success did not fail there. Whenever the chart path already exists,
CreateChart returns success and changes nothing in the filesystem. -/
theorem CreateChart_idempotent (a1 a2 : helm.Activity) (fs : os.FileSystem)
    (p1 p2 : CreateChartParam) (hpath : p1.RepositoryPath = p2.RepositoryPath) :
    (¬ helm.chartDirCreationFailed fs p1 →
      (helm.CreateChart a2 (helm.CreateChart a1 fs p1).fs p2).result = none ∧
      (helm.CreateChart a2 (helm.CreateChart a1 fs p1).fs p2).fs = (helm.CreateChart a1 fs p1).fs) ∧
    ((helm.CreateChart a1 fs p1).result = none → ¬ helm.chartDirCreationFailed fs p1) ∧
    (∀ n : os.Node, os.Stat fs (helm.chartPath p1) = .ok n →
      (helm.CreateChart a1 fs p1).result = none ∧ (helm.CreateChart a1 fs p1).fs = fs) := by
  refine ⟨?_, ?_, ?_⟩
  · intro hnf
    apply helm.CreateChart_skip
    rw [← helm.chartPath_congr hpath]
    cases hne : os.IsNotExist (os.Stat fs (helm.chartPath p1)) with
    | false =>
      rw [(helm.CreateChart_skip a1 fs p1 hne).2]
      exact hne
    | true =>
      have hmk : (os.MkdirAll fs (helm.chartPath p1)).2 = none := by
        by_contra hcon
        exact hnf ⟨hne, hcon⟩
      obtain ⟨w, hw⟩ := helm.CreateChart_chart_exists a1 fs p1 hne hmk
      rw [hw]
      rfl
  · intro hok hfail
    obtain ⟨hne, hmk⟩ := hfail
    unfold helm.CreateChart at hok
    simp only [hne, if_true] at hok
    split at hok
    · simp at hok
    · rename_i fs1 heq
      rw [heq] at hmk
      exact hmk rfl
  · intro n hn
    apply helm.CreateChart_skip
    rw [hn]
    rfl

/-- C4 (witness): two calls in succession on an empty repository directory. -/
theorem CreateChart_idempotent_witness :
    ¬ helm.chartDirCreationFailed fsEmptyRepo paramChart ∧
    (helm.CreateChart activityChart
      (helm.CreateChart activityChart fsEmptyRepo paramChart).fs paramChart).result = none :=
  ⟨by unfold helm.chartDirCreationFailed; decide,
   ((CreateChart_idempotent activityChart activityChart fsEmptyRepo paramChart paramChart rfl).1
      (by unfold helm.chartDirCreationFailed; decide)).1⟩

/-! ### Chart creation: the files written -/

namespace filepath

theorem splitChars_noslash : ∀ b : List Char, '/' ∉ b → splitChars b = [b]
  | [], _ => rfl
  | c :: cs, h => by
    have hc : c ≠ '/' := fun e => h (by simp [e])
    have hcs : '/' ∉ cs := fun e => h (by simp [e])
    simp [splitChars, hc, splitChars_noslash cs hcs]

theorem cleanStep_plain (acc : Path) (c : String) (h : c ≠ "" ∧ c ≠ "." ∧ c ≠ "..") :
    cleanStep acc c = acc ++ [c] := by
  simp [cleanStep, h.1, h.2.1, h.2.2]

theorem foldl_cleanStep_plain : ∀ (l : List String) (acc : Path), Plain l →
    l.foldl cleanStep acc = acc ++ l
  | [], acc, _ => by simp
  | c :: cs, acc, h => by
    have hc := h c (by simp)
    have hcs : Plain cs := fun d hd => h d (by simp [hd])
    rw [List.foldl_cons, cleanStep_plain acc c hc, foldl_cleanStep_plain cs _ hcs]
    simp

theorem plain_dropLast {l : List String} (h : Plain l) : Plain l.dropLast :=
  fun c hc => h c (List.mem_of_mem_dropLast hc)

theorem plain_cleanStep {acc : Path} (h : Plain acc) (c : String) : Plain (cleanStep acc c) := by
  unfold cleanStep
  split_ifs with h1 h2
  · exact h
  · exact plain_dropLast h
  · intro d hd
    rcases List.mem_append.mp hd with hd | hd
    · exact h d hd
    · have : d = c := by simpa using hd
      subst this
      push_neg at h1
      exact ⟨h1.1, h1.2, h2⟩

theorem plain_foldl : ∀ (l : List String) (acc : Path), Plain acc → Plain (l.foldl cleanStep acc)
  | [], _, h => h
  | c :: cs, acc, h => by
    rw [List.foldl_cons]
    exact plain_foldl cs _ (plain_cleanStep h c)

theorem plain_Clean (l : List String) : Plain (Clean l) :=
  plain_foldl l [] (fun _ h => by simp at h)

theorem Clean_plain {l : List String} (h : Plain l) : Clean l = l := by
  unfold Clean
  rw [foldl_cleanStep_plain l [] h]
  simp

theorem Clean_Clean_append (x y : List String) : Clean (Clean x ++ y) = Clean (x ++ y) := by
  unfold Clean
  rw [List.foldl_append, List.foldl_append]
  congr 1
  exact Clean_plain (plain_Clean x)

theorem Clean_append_plain (x : List String) {y : List String} (h : Plain y) :
    Clean (x ++ y) = Clean x ++ y := by
  unfold Clean
  rw [List.foldl_append, foldl_cleanStep_plain y _ h]

end filepath

namespace strings

theorem HasSuffix_append (s ext : String) : HasSuffix (s ++ ext) ext = true := by
  simp [HasSuffix, String.data_append]

theorem TrimSuffix_append (s ext : String) : TrimSuffix (s ++ ext) ext = s := by
  unfold TrimSuffix
  rw [if_pos (HasSuffix_append s ext)]
  apply String.ext
  simp [String.data_append]

end strings

namespace filepath

theorem split_noslash (s : String) (h : '/' ∉ s.data) : split s = [s] := by
  simp [split, splitChars_noslash s.data h]

theorem split_chart (s : String) (h : '/' ∉ s.data) : split ("chart/" ++ s) = ["chart", s] := by
  have e : ("chart/" ++ s).data = 'c' :: 'h' :: 'a' :: 'r' :: 't' :: '/' :: s.data := by
    rw [String.data_append]; rfl
  unfold split
  rw [e]
  simp [splitChars, splitChars_noslash s.data h]

theorem split_chart_templates (s : String) (h : '/' ∉ s.data) :
    split ("chart/templates/" ++ s) = ["chart", "templates", s] := by
  have e : ("chart/templates/" ++ s).data =
      'c' :: 'h' :: 'a' :: 'r' :: 't' :: '/' :: 't' :: 'e' :: 'm' :: 'p' :: 'l' :: 'a' :: 't' :: 'e'
        :: 's' :: '/' :: s.data := by
    rw [String.data_append]; rfl
  unfold split
  rw [e]
  simp [splitChars, splitChars_noslash s.data h]

theorem noslash_append_gohtml (s : String) (h : '/' ∉ s.data) : '/' ∉ (s ++ ".gohtml").data := by
  rw [String.data_append]
  intro hm
  rcases List.mem_append.mp hm with hm | hm
  · exact h hm
  · revert hm; decide

theorem append_gohtml_ne_empty (s : String) : s ++ ".gohtml" ≠ "" := by
  intro h
  have := congrArg (fun t : String => t.data.length) h
  simp [String.data_append] at this

theorem Base_of_split {s : String} {init : List String} {last : String}
    (h : split s = init ++ [last]) (hl : last ≠ "") : Base s = last := by
  unfold Base
  rw [h, List.filter_append]
  simp [hl]

end filepath

namespace os

theorem lookup_node (fs : FileSystem) (rest : List String) :
    ∀ (cur : Path) (n : Node), lookup fs cur rest = .ok n → fs (cur ++ rest) = some n := by
  induction rest with
  | nil =>
    intro cur n h
    cases hc : fs cur with
    | none => simp [lookup, hc] at h
    | some m =>
      simp only [lookup, hc, Except.ok.injEq] at h
      simp [hc, h]
  | cons c rest ih =>
    intro cur n h
    cases hc : fs cur with
    | none => simp [lookup, hc] at h
    | some m =>
      cases m with
      | file content => simp [lookup, hc] at h
      | dir w =>
        simp only [lookup, hc] at h
        have := ih (cur ++ [c]) n h
        simpa using this

theorem wf_ancestor {fs : FileSystem} (hwf : fs.WellFormed) (cur : Path) :
    ∀ r : List String, r ≠ [] → fs (cur ++ r) ≠ none → ∃ w, fs cur = some (.dir w) := by
  intro r
  induction r using List.reverseRecOn with
  | nil => intro h; exact absurd rfl h
  | append_singleton r c ih =>
    intro _ hn
    rw [← List.append_assoc] at hn
    obtain ⟨w, hw⟩ := hwf (cur ++ r) c hn
    by_cases hr : r = []
    · subst hr
      exact ⟨w, by simpa using hw⟩
    · exact ih hr (by simp [hw])

theorem wf_lookup {fs : FileSystem} (hwf : fs.WellFormed) (rest : List String) :
    ∀ (cur : Path) (n : Node), fs (cur ++ rest) = some n → lookup fs cur rest = .ok n := by
  induction rest with
  | nil =>
    intro cur n h
    simp only [List.append_nil] at h
    simp [lookup, h]
  | cons c rest ih =>
    intro cur n h
    obtain ⟨w, hw⟩ := wf_ancestor hwf cur (c :: rest) (by simp) (by simp [h])
    simp only [lookup, hw]
    exact ih (cur ++ [c]) n (by simpa using h)

theorem lookup_snoc (fs : FileSystem) (c : String) (a : List String) :
    ∀ (cur : Path) (w : Bool), lookup fs cur a = .ok (.dir w) →
      lookup fs cur (a ++ [c]) =
        (match fs (cur ++ a ++ [c]) with
         | some n => .ok n
         | none => .error .ENOENT) := by
  induction a with
  | nil =>
    intro cur w h
    cases hc : fs cur with
    | none => simp [lookup, hc] at h
    | some m =>
      simp only [lookup, hc, Except.ok.injEq] at h
      subst h
      simp [lookup, hc]
  | cons d a ih =>
    intro cur w h
    cases hc : fs cur with
    | none => simp [lookup, hc] at h
    | some m =>
      cases m with
      | file content => simp [lookup, hc] at h
      | dir w1 =>
        simp only [lookup, hc] at h
        have := ih (cur ++ [d]) w h
        simpa [lookup, hc] using this

theorem mkdirFrom_changes (rest : List String) :
    ∀ (fs : FileSystem) (cur : Path) (q : Path), (mkdirFrom fs cur rest).1 q ≠ fs q →
      fs q = none ∧ (mkdirFrom fs cur rest).1 q = some (.dir true) ∧
        ∃ pre, pre <+: rest ∧ q = cur ++ pre := by
  induction rest with
  | nil =>
    intro fs cur q h
    exfalso
    apply h
    unfold mkdirFrom
    split <;> rfl
  | cons c rest ih =>
    intro fs cur q h
    cases hc : fs cur with
    | none => exact absurd (by simp [mkdirFrom, hc]) h
    | some m =>
      cases m with
      | file content => exact absurd (by simp [mkdirFrom, hc]) h
      | dir w =>
        cases hn : fs (cur ++ [c]) with
        | some m2 =>
          have e : mkdirFrom fs cur (c :: rest) = mkdirFrom fs (cur ++ [c]) rest := by
            simp [mkdirFrom, hc, hn]
          rw [e] at h ⊢
          obtain ⟨h1, h2, pre, hp, hq⟩ := ih fs (cur ++ [c]) q h
          exact ⟨h1, h2, c :: pre, List.cons_prefix_cons.mpr ⟨rfl, hp⟩, by simp [hq]⟩
        | none =>
          cases w with
          | false => exact absurd (by simp [mkdirFrom, hc, hn]) h
          | true =>
            have e : mkdirFrom fs cur (c :: rest) =
                mkdirFrom (fs.set (cur ++ [c]) (.dir true)) (cur ++ [c]) rest := by
              simp [mkdirFrom, hc, hn]
            rw [e] at h ⊢
            by_cases hch : (mkdirFrom (fs.set (cur ++ [c]) (.dir true)) (cur ++ [c]) rest).1 q =
                (fs.set (cur ++ [c]) (.dir true)) q
            · have hq : q = cur ++ [c] := by
                by_contra hne
                apply h
                rw [hch, set_other fs _ hne]
              refine ⟨by rw [hq]; exact hn, ?_, [c], by simp, hq⟩
              rw [hch, hq, set_same]
            · obtain ⟨h1, h2, pre, hp, hq⟩ := ih _ (cur ++ [c]) q hch
              have hne : q ≠ cur ++ [c] := by
                intro heq
                rw [heq, set_same] at h1
                cases h1
              rw [set_other fs _ hne] at h1
              exact ⟨h1, h2, c :: pre, List.cons_prefix_cons.mpr ⟨rfl, hp⟩, by simp [hq]⟩

theorem MkdirAll_eq (fs : FileSystem) (path : Path) :
    (MkdirAll fs path).1 = (mkdirFrom fs [] path).1 ∧
    ((MkdirAll fs path).2 = none ↔ (mkdirFrom fs [] path).2 = none) := by
  exact ⟨rfl, Iff.rfl⟩

theorem MkdirAll_ok_lookup (fs : FileSystem) (path : Path) (h : (MkdirAll fs path).2 = none) :
    ∃ w, lookup (MkdirAll fs path).1 [] path = .ok (.dir w) := by
  rw [(MkdirAll_eq fs path).1]
  exact mkdirFrom_ok_lookup path fs [] ((MkdirAll_eq fs path).2.mp h)

theorem MkdirAll_changes (fs : FileSystem) (path q : Path) (h : (MkdirAll fs path).1 q ≠ fs q) :
    fs q = none ∧ (MkdirAll fs path).1 q = some (.dir true) ∧ q <+: path := by
  rw [(MkdirAll_eq fs path).1] at h ⊢
  obtain ⟨h1, h2, pre, hp, hq⟩ := mkdirFrom_changes path fs [] q h
  exact ⟨h1, h2, by simpa [hq] using hp⟩

theorem Create_ok (fs : FileSystem) (path : Path) (h : (Create fs path).2 = none) :
    (Create fs path).1 = fs.set path (.file "") ∧ ∀ w, fs path ≠ some (.dir w) := by
  cases hl : lookup fs [] path.dropLast with
  | error e => simp [Create, hl] at h
  | ok m =>
    cases m with
    | file content => simp [Create, hl] at h
    | dir writable =>
      by_cases hp : path = []
      · subst hp
        simp only [List.dropLast_nil] at hl
        simp [Create, hl] at h
      · cases hn : fs path with
        | none =>
          cases writable with
          | false => simp [Create, hl, hp, hn] at h
          | true => simp [Create, hl, hp, hn]
        | some m2 =>
          cases m2 with
          | dir w2 => simp [Create, hl, hp, hn] at h
          | file content => simp [Create, hl, hp, hn]

theorem IsNotExist_Stat (fs : FileSystem) (path : Path) :
    IsNotExist (Stat fs path) = true ↔ lookup fs [] path = .error .ENOENT := by
  unfold Stat
  cases h : lookup fs [] path with
  | ok n => simp [IsNotExist]
  | error e => cases e <;> simp [IsNotExist]

end os

namespace helm

theorem writeTemplates_ok (param : CreateChartParam) (l : List (String × Template)) :
    ∀ fs : os.FileSystem, (writeTemplates param l fs).result = none →
      (∀ pt ∈ l, ∀ w, fs (target param pt.1 pt.2) ≠ some (.dir w)) ∧
      (∀ q, (∀ pt ∈ l, q ≠ target param pt.1 pt.2) → (writeTemplates param l fs).fs q = fs q) ∧
      ((l.map (fun pt => target param pt.1 pt.2)).Nodup → ∀ pt ∈ l,
        (writeTemplates param l fs).fs (target param pt.1 pt.2) =
          some (.file (pt.2.Execute (dataOf param)).1)) := by
  induction l with
  | nil =>
    intro fs _
    refine ⟨by simp, fun q _ => rfl, by simp⟩
  | cons pt rest ih =>
    intro fs hok
    obtain ⟨path, tpl⟩ := pt
    cases hC : os.Create fs (target param path tpl) with
    | mk fs1 e =>
      cases e with
      | some err => simp [writeTemplates, hC] at hok
      | none =>
        cases hE : tpl.Execute (dataOf param) with
        | mk out e2 =>
          cases e2 with
          | some err => simp [writeTemplates, hC, hE] at hok
          | none =>
            have hstep : writeTemplates param ((path, tpl) :: rest) fs =
                writeTemplates param rest (os.Write fs1 (target param path tpl) out) := by
              simp [writeTemplates, hC, hE]
            rw [hstep] at hok ⊢
            have hcr := os.Create_ok fs (target param path tpl) (by rw [hC])
            rw [hC] at hcr
            have hfs1 : fs1 = fs.set (target param path tpl) (.file "") := hcr.1
            have hw : ∀ q, os.Write fs1 (target param path tpl) out q =
                if q = target param path tpl then some (.file out) else fs q := by
              intro q
              have h1 : fs1 (target param path tpl) = some (.file "") := by
                rw [hfs1, os.set_same]
              unfold os.Write
              rw [h1]
              simp only [os.set_apply, hfs1]
              split_ifs <;> simp
            obtain ⟨ia, ib, ic⟩ := ih _ hok
            refine ⟨?_, ?_, ?_⟩
            · intro pt hpt w
              rcases List.mem_cons.mp hpt with h | h
              · subst h
                exact hcr.2 w
              · intro hd
                have hkept : os.DirsKept fs (os.Write fs1 (target param path tpl) out) := by
                  have h1 := os.Create_dirsKept fs (target param path tpl)
                  rw [hC] at h1
                  exact os.DirsKept.trans h1 (os.Write_dirsKept _ _ _)
                exact ia pt h w (hkept _ w hd)
            · intro q hq
              rw [ib q (fun pt hpt => hq pt (List.mem_cons_of_mem _ hpt)), hw q]
              rw [if_neg (hq (path, tpl) (List.mem_cons_self _ _))]
            · intro hnd pt hpt
              rw [List.map_cons, List.nodup_cons] at hnd
              rcases List.mem_cons.mp hpt with h | h
              · subst h
                rw [ib _ (fun pt2 hpt2 heq => hnd.1 (List.mem_map.mpr ⟨pt2, hpt2, heq.symm⟩)), hw]
                simp [hE]
              · exact ic hnd.2 pt h

theorem mapInsert_keys (l : List (String × Template)) (p : String) (t : Template) :
    (mapInsert l p t).map Prod.fst =
      if p ∈ l.map Prod.fst then l.map Prod.fst else l.map Prod.fst ++ [p] := by
  induction l with
  | nil => simp [mapInsert]
  | cons kv rest ih =>
    obtain ⟨k, v⟩ := kv
    by_cases hk : k = p
    · simp [mapInsert, hk]
    · have hk2 : ¬ p = k := fun h => hk h.symm
      simp only [mapInsert, hk, if_false, List.map_cons, ih, List.mem_cons, hk2, false_or]
      split_ifs <;> simp

theorem mapInsert_mem (l : List (String × Template)) (p : String) (t : Template)
    (kv : String × Template) (h : kv ∈ mapInsert l p t) : kv = (p, t) ∨ kv ∈ l := by
  induction l with
  | nil => simpa [mapInsert] using h
  | cons kv2 rest ih =>
    obtain ⟨k, v⟩ := kv2
    by_cases hk : k = p
    · simp only [mapInsert, hk, if_true, List.mem_cons] at h
      rcases h with h | h
      · exact Or.inl h
      · exact Or.inr (List.mem_cons_of_mem _ h)
    · simp only [mapInsert, hk, if_false, List.mem_cons] at h
      rcases h with h | h
      · exact Or.inr (by simp [h])
      · rcases ih h with h2 | h2
        · exact Or.inl h2
        · exact Or.inr (List.mem_cons_of_mem _ h2)

/-- What `initChartTemplates` guarantees of the map it returns. -/
theorem initChartTemplatesFrom_spec : ∀ (entries : List EmbedEntry)
    (acc ts : List (String × Template)), initChartTemplatesFrom acc entries = .ok ts →
    (acc.map Prod.fst).Nodup →
    (ts.map Prod.fst).Nodup ∧
    (∀ kv ∈ ts, kv ∈ acc ∨
      ∃ e ∈ entries, e.isDir = false ∧ kv.1 = e.path ∧ kv.2.Name = filepath.Base e.path) ∧
    (∀ k ∈ acc.map Prod.fst, k ∈ ts.map Prod.fst) ∧
    (∀ e ∈ entries, e.isDir = false → strings.HasSuffix e.path TemplateExtension = true →
      e.path ∈ ts.map Prod.fst)
  | [], acc, ts, h, hnd => by
    simp only [initChartTemplatesFrom, Except.ok.injEq] at h
    subst h
    exact ⟨hnd, fun kv hkv => Or.inl hkv, fun k hk => hk, by simp⟩
  | entry :: rest, acc, ts, h, hnd => by
    cases hw : entry.walkErr with
    | some err => simp [initChartTemplatesFrom, hw] at h
    | none =>
      by_cases hsel : (!entry.isDir && strings.HasSuffix entry.path TemplateExtension) = true
      · cases hp : ParseFS entry with
        | error err => simp [initChartTemplatesFrom, hw, hsel, hp] at h
        | ok t =>
          have hstep : initChartTemplatesFrom acc (entry :: rest) =
              initChartTemplatesFrom (mapInsert acc entry.path t) rest := by
            simp [initChartTemplatesFrom, hw, hsel, hp]
          rw [hstep] at h
          have hname : t.Name = filepath.Base entry.path := by
            unfold ParseFS at hp
            split at hp
            · cases hp
            · simp only [Except.ok.injEq] at hp
              rw [← hp]
          have hdir : entry.isDir = false := by
            cases hd : entry.isDir with
            | false => rfl
            | true => simp [hd] at hsel
          have hnd2 : ((mapInsert acc entry.path t).map Prod.fst).Nodup := by
            rw [mapInsert_keys]
            split_ifs with hin
            · exact hnd
            · exact List.Nodup.append hnd (by simp) (by simpa using hin)
          obtain ⟨r1, r2, r3, r4⟩ := initChartTemplatesFrom_spec rest _ ts h hnd2
          have hkey : entry.path ∈ (mapInsert acc entry.path t).map Prod.fst := by
            rw [mapInsert_keys]
            split_ifs with hin
            · exact hin
            · simp
          refine ⟨r1, ?_, ?_, ?_⟩
          · intro kv hkv
            rcases r2 kv hkv with h1 | ⟨e, he, h2⟩
            · rcases mapInsert_mem acc entry.path t kv h1 with h3 | h3
              · right
                refine ⟨entry, List.mem_cons_self _ _, hdir, ?_, ?_⟩
                · rw [h3]
                · rw [h3]; exact hname
              · exact Or.inl h3
            · exact Or.inr ⟨e, List.mem_cons_of_mem _ he, h2⟩
          · intro k hk
            apply r3
            rw [mapInsert_keys]
            split_ifs
            · exact hk
            · exact List.mem_append_left _ hk
          · intro e he hd hs
            rcases List.mem_cons.mp he with h1 | h1
            · subst h1
              exact r3 _ hkey
            · exact r4 e h1 hd hs
      · have hstep : initChartTemplatesFrom acc (entry :: rest) =
            initChartTemplatesFrom acc rest := by
          simp [initChartTemplatesFrom, hw, hsel]
        rw [hstep] at h
        obtain ⟨r1, r2, r3, r4⟩ := initChartTemplatesFrom_spec rest acc ts h hnd
        refine ⟨r1, ?_, r3, ?_⟩
        · intro kv hkv
          rcases r2 kv hkv with h1 | ⟨e, he, h2⟩
          · exact Or.inl h1
          · exact Or.inr ⟨e, List.mem_cons_of_mem _ he, h2⟩
        · intro e he hd hs
          rcases List.mem_cons.mp he with h1 | h1
          · subst h1
            exact absurd (by simp [hd, hs]) hsel
          · exact r4 e h1 hd hs

/-- Every template of the map `initChartTemplates` returns was parsed from the
embedded file whose path is its key. -/
theorem initChartTemplatesFrom_parsed : ∀ (entries : List EmbedEntry)
    (acc ts : List (String × Template)), initChartTemplatesFrom acc entries = .ok ts →
    ∀ kv ∈ ts, kv ∈ acc ∨
      ∃ e ∈ entries, e.isDir = false ∧ e.path = kv.1 ∧ e.parsed = .ok kv.2.Execute
  | [], acc, ts, h => by
    simp only [initChartTemplatesFrom, Except.ok.injEq] at h
    subst h
    exact fun kv hkv => Or.inl hkv
  | entry :: rest, acc, ts, h => by
    cases hw : entry.walkErr with
    | some err => simp [initChartTemplatesFrom, hw] at h
    | none =>
      by_cases hsel : (!entry.isDir && strings.HasSuffix entry.path TemplateExtension) = true
      · cases hp : ParseFS entry with
        | error err => simp [initChartTemplatesFrom, hw, hsel, hp] at h
        | ok t =>
          have hstep : initChartTemplatesFrom acc (entry :: rest) =
              initChartTemplatesFrom (mapInsert acc entry.path t) rest := by
            simp [initChartTemplatesFrom, hw, hsel, hp]
          rw [hstep] at h
          have hbody : entry.parsed = .ok t.Execute := by
            unfold ParseFS at hp
            split at hp
            · cases hp
            · rename_i body heq
              simp only [Except.ok.injEq] at hp
              rw [← hp]
              exact heq
          have hdir : entry.isDir = false := by
            cases hd : entry.isDir with
            | false => rfl
            | true => simp [hd] at hsel
          intro kv hkv
          rcases initChartTemplatesFrom_parsed rest _ ts h kv hkv with h1 | ⟨e, he, h2⟩
          · rcases mapInsert_mem acc entry.path t kv h1 with h3 | h3
            · right
              refine ⟨entry, List.mem_cons_self _ _, hdir, ?_, ?_⟩
              · rw [h3]
              · rw [h3]; exact hbody
            · exact Or.inl h3
          · exact Or.inr ⟨e, List.mem_cons_of_mem _ he, h2⟩
      · have hstep : initChartTemplatesFrom acc (entry :: rest) =
            initChartTemplatesFrom acc rest := by
          simp [initChartTemplatesFrom, hw, hsel]
        rw [hstep] at h
        intro kv hkv
        rcases initChartTemplatesFrom_parsed rest acc ts h kv hkv with h1 | ⟨e, he, h2⟩
        · exact Or.inl h1
        · exact Or.inr ⟨e, List.mem_cons_of_mem _ he, h2⟩

end helm

namespace os

theorem lookup_snoc_ok (fs : FileSystem) (c : String) (a : List String) :
    ∀ (cur : Path) (n : Node), lookup fs cur (a ++ [c]) = .ok n →
      ∃ w, fs (cur ++ a) = some (.dir w) := by
  induction a with
  | nil =>
    intro cur n h
    cases hc : fs cur with
    | none => simp [lookup, hc] at h
    | some m =>
      cases m with
      | file content => simp [lookup, hc] at h
      | dir w => exact ⟨w, by simpa using hc⟩
  | cons d a ih =>
    intro cur n h
    cases hc : fs cur with
    | none => simp [lookup, hc] at h
    | some m =>
      cases m with
      | file content => simp [lookup, hc] at h
      | dir w =>
        simp only [List.cons_append, lookup, hc] at h
        obtain ⟨w1, hw1⟩ := ih (cur ++ [d]) n h
        exact ⟨w1, by simpa using hw1⟩

end os

namespace filepath

theorem Clean_snoc (x : List String) (c : String) : Clean (x ++ [c]) = cleanStep (Clean x) c := by
  unfold Clean
  rw [List.foldl_append]
  rfl

end filepath

namespace helm

theorem onepaasPath_eq (param : CreateChartParam) :
    onepaasPath param = filepath.Clean (filepath.split param.RepositoryPath) ++ [".onepaas"] := by
  unfold onepaasPath filepath.Join
  simp only [List.flatten, List.append_nil]
  rw [filepath.Clean_snoc, filepath.cleanStep_plain _ _ (by decide)]

theorem onepaasPath_plain (param : CreateChartParam) : filepath.Plain (onepaasPath param) := by
  unfold onepaasPath filepath.Join
  exact filepath.plain_Clean _

theorem plain_snoc {l : List String} (h : filepath.Plain l) {c : String}
    (hc : c ≠ "" ∧ c ≠ "." ∧ c ≠ "..") : filepath.Plain (l ++ [c]) := by
  intro d hd
  rcases List.mem_append.mp hd with hd | hd
  · exact h d hd
  · have : d = c := by simpa using hd
    rw [this]
    exact hc

theorem chartPath_eq (param : CreateChartParam) : chartPath param = onepaasPath param ++ ["chart"] := by
  unfold chartPath filepath.Join
  simp only [List.flatten, List.append_nil]
  exact filepath.Clean_plain (plain_snoc (onepaasPath_plain param) (by decide))

theorem chartTemplatesPath_eq (param : CreateChartParam) :
    chartTemplatesPath param = chartPath param ++ ["templates"] := by
  unfold chartTemplatesPath filepath.Join
  simp only [List.flatten, List.append_nil]
  rw [chartPath_eq]
  exact filepath.Clean_plain (plain_snoc (plain_snoc (onepaasPath_plain param) (by decide)) (by decide))

/-- The directory below `.onepaas` and the file stem of an embedded asset. -/
theorem asset_paths (param : CreateChartParam) (p : String) (tpl : Template)
    (hp : EmbedPattern p) (hname : tpl.Name = filepath.Base p) :
    ∃ (dir : List String) (stem : String),
      (dir = ["chart"] ∨ dir = ["chart", "templates"]) ∧
      p = String.intercalate "/" dir ++ "/" ++ stem ++ ".gohtml" ∧
      filepath.split (strings.TrimSuffix p ".gohtml") = dir ++ [stem] ∧
      target param p tpl = filepath.cleanStep (onepaasPath param ++ dir) stem ∧
      outputPath param p = filepath.cleanStep (onepaasPath param ++ dir) stem := by
  obtain ⟨stem, hs, hp | hp⟩ := hp
  · refine ⟨["chart"], stem, Or.inl rfl, ?_, ?_, ?_, ?_⟩
    · rw [hp]; rfl
    · rw [hp, strings.TrimSuffix_append, filepath.split_chart stem hs]
      rfl
    · have hsplit : filepath.split p = ["chart"] ++ [stem ++ ".gohtml"] := by
        rw [hp, String.append_assoc,
          filepath.split_chart _ (filepath.noslash_append_gohtml stem hs)]
        rfl
      have hbase : filepath.Base p = stem ++ ".gohtml" :=
        filepath.Base_of_split hsplit (filepath.append_gohtml_ne_empty stem)
      unfold target filepath.Join filepath.Dir
      rw [hname, hbase, hsplit]
      simp only [TemplateExtension, strings.TrimSuffix_append, List.flatten, List.append_nil,
        List.dropLast_concat]
      rw [← List.append_assoc, filepath.Clean_snoc,
        filepath.Clean_plain (plain_snoc (onepaasPath_plain param) (by decide))]
    · unfold outputPath filepath.Join
      rw [hp, strings.TrimSuffix_append, filepath.split_chart stem hs]
      simp only [List.flatten, List.append_nil]
      have e : filepath.split param.RepositoryPath ++ ([".onepaas"] ++ ["chart", stem]) =
          ((filepath.split param.RepositoryPath ++ [".onepaas"]) ++ ["chart"]) ++ [stem] := by
        simp
      rw [e, filepath.Clean_snoc, filepath.Clean_snoc, filepath.Clean_snoc,
        filepath.cleanStep_plain _ ".onepaas" (by decide),
        filepath.cleanStep_plain _ "chart" (by decide), onepaasPath_eq]
  · refine ⟨["chart", "templates"], stem, Or.inr rfl, ?_, ?_, ?_, ?_⟩
    · rw [hp]; rfl
    · rw [hp, strings.TrimSuffix_append, filepath.split_chart_templates stem hs]
      rfl
    · have hsplit : filepath.split p = ["chart", "templates"] ++ [stem ++ ".gohtml"] := by
        rw [hp, String.append_assoc,
          filepath.split_chart_templates _ (filepath.noslash_append_gohtml stem hs)]
        rfl
      have hbase : filepath.Base p = stem ++ ".gohtml" :=
        filepath.Base_of_split hsplit (filepath.append_gohtml_ne_empty stem)
      unfold target filepath.Join filepath.Dir
      rw [hname, hbase, hsplit]
      simp only [TemplateExtension, strings.TrimSuffix_append, List.flatten, List.append_nil,
        List.dropLast_concat]
      rw [← List.append_assoc, filepath.Clean_snoc,
        filepath.Clean_plain (by
          have := plain_snoc (plain_snoc (onepaasPath_plain param) (c := "chart") (by decide))
            (c := "templates") (by decide)
          simpa using this)]
    · unfold outputPath filepath.Join
      rw [hp, strings.TrimSuffix_append, filepath.split_chart_templates stem hs]
      simp only [List.flatten, List.append_nil]
      have e : filepath.split param.RepositoryPath ++ ([".onepaas"] ++ ["chart", "templates", stem]) =
          (((filepath.split param.RepositoryPath ++ [".onepaas"]) ++ ["chart"]) ++ ["templates"])
            ++ [stem] := by
        simp
      rw [e, filepath.Clean_snoc, filepath.Clean_snoc, filepath.Clean_snoc, filepath.Clean_snoc,
        filepath.cleanStep_plain _ ".onepaas" (by decide),
        filepath.cleanStep_plain _ "chart" (by decide),
        filepath.cleanStep_plain _ "templates" (by decide), onepaasPath_eq]
      simp

end helm

namespace helm

theorem New_templates {chart : List EmbedEntry} {a0 : Activity} (h : New chart = .ok a0) :
    initChartTemplatesFrom [] chart = .ok a0.templates := by
  unfold New initChartTemplates at h
  split at h
  · cases h
  · rename_i ts heq
    simp only [Except.ok.injEq] at h
    rw [← h]
    exact heq

theorem cleanStep_cases (acc : Path) (c : String) :
    (c ≠ "" ∧ c ≠ "." ∧ c ≠ "..") ∨ filepath.cleanStep acc c = acc ∨
      filepath.cleanStep acc c = acc.dropLast := by
  unfold filepath.cleanStep
  by_cases h1 : c = "" ∨ c = "."
  · right; left; simp [h1]
  · by_cases h2 : c = ".."
    · right; right; simp [h1, h2]
    · left
      push_neg at h1
      exact ⟨h1.1, h1.2, h2⟩

end helm

/-- C8: from a well-formed filesystem in which the chart path does not exist, a
CreateChart call that returns success (every filesystem and rendering step
succeeded) leaves the directories chart and chart/templates below
RepositoryPath/.onepaas; every embedded asset is a template of the activity;
for every template, embedded at path p, the template is named by the base
name of p and was parsed from the asset embedded at p, the file the loop
targets is RepositoryPath/.onepaas/p without the trailing .gohtml, which
mirrors the asset path below .onepaas, and that file holds the rendering of
the template against the seven substitution values of the call parameters; the output files of different templates differ; and any other path
whose entry changed is a directory created on the way to chart/templates. -/
theorem CreateChart_writes_chart (chart : List helm.EmbedEntry) (a0 a : helm.Activity)
    (fs : os.FileSystem) (param : CreateChartParam)
    (hembed : ∀ e ∈ chart, e.isDir = false → helm.EmbedPattern e.path)
    (hnew : helm.New chart = .ok a0) (hperm : a.templates.Perm a0.templates)
    (hwf : fs.WellFormed)
    (hne : os.IsNotExist (os.Stat fs (helm.chartPath param)) = true)
    (hok : (helm.CreateChart a fs param).result = none) :
    (helm.CreateChart a fs param).fs (helm.chartPath param) = some (.dir true) ∧
    (helm.CreateChart a fs param).fs (helm.chartTemplatesPath param) = some (.dir true) ∧
    helm.chartPath param = helm.onepaasPath param ++ ["chart"] ∧
    helm.chartTemplatesPath param = helm.onepaasPath param ++ ["chart", "templates"] ∧
    (∀ e ∈ chart, e.isDir = false → ∃ tpl, (e.path, tpl) ∈ a.templates) ∧
    (∀ (p : String) (tpl : helm.Template), (p, tpl) ∈ a.templates →
      tpl.Name = filepath.Base p ∧
      helm.target param p tpl = helm.outputPath param p ∧
      helm.outputPath param p =
        helm.onepaasPath param ++ filepath.split (strings.TrimSuffix p ".gohtml") ∧
      (∃ e ∈ chart, e.isDir = false ∧ e.path = p ∧ e.parsed = .ok tpl.Execute) ∧
      (helm.CreateChart a fs param).fs (helm.outputPath param p) =
        some (.file (tpl.Execute
          { ApplicationName := param.ApplicationName
            ApplicationSlug := param.ApplicationSlug
            ApplicationHostname := param.ApplicationHostname
            ImageRegistry := param.ImageRegistry
            ImageRepository := param.ImageRepository
            ImageTag := param.ImageTag
            KubernetesIngressClass := param.KubernetesIngressClass }).1)) ∧
    (a.templates.map (fun pt => helm.outputPath param pt.1)).Nodup ∧
    (∀ q : Path, (helm.CreateChart a fs param).fs q ≠ fs q →
      (∃ pt ∈ a.templates, q = helm.outputPath param pt.1) ∨
      (fs q = none ∧ (helm.CreateChart a fs param).fs q = some (.dir true) ∧
        q <+: helm.chartTemplatesPath param)) := by
  -- the template map
  have hts := helm.New_templates hnew
  obtain ⟨hkeys0, hsrc0, _, hall0⟩ :=
    helm.initChartTemplatesFrom_spec chart [] a0.templates hts (by simp)
  have hkeys : (a.templates.map Prod.fst).Nodup :=
    (List.Perm.nodup_iff (hperm.map Prod.fst)).mpr hkeys0
  have hsrc : ∀ p tpl, (p, tpl) ∈ a.templates → helm.EmbedPattern p ∧ tpl.Name = filepath.Base p := by
    intro p tpl hmem
    rcases hsrc0 (p, tpl) (hperm.mem_iff.mp hmem) with h | ⟨e, he, hd, hpe, hn⟩
    · simp at h
    · simp only at hpe hn
      rw [hpe]
      exact ⟨hembed e he hd, by rw [hn]⟩
  -- the paths
  have hcp := helm.chartPath_eq param
  have htp : helm.chartTemplatesPath param = helm.onepaasPath param ++ ["chart", "templates"] := by
    rw [helm.chartTemplatesPath_eq, hcp]; simp
  -- the state before the call
  have hlk : os.lookup fs [] (helm.chartPath param) = .error .ENOENT :=
    (os.IsNotExist_Stat fs _).mp hne
  have hfc : fs (helm.chartPath param) = none := by
    cases h : fs (helm.chartPath param) with
    | none => rfl
    | some n =>
      have := os.wf_lookup hwf (helm.chartPath param) [] n (by simpa using h)
      rw [this] at hlk
      cases hlk
  have hft : fs (helm.chartTemplatesPath param) = none := by
    cases h : fs (helm.chartTemplatesPath param) with
    | none => rfl
    | some n =>
      rw [helm.chartTemplatesPath_eq] at h
      obtain ⟨w, hw⟩ := hwf (helm.chartPath param) "templates" (by simp [h])
      rw [hfc] at hw
      cases hw
  -- first directory
  cases hM : os.MkdirAll fs (helm.chartPath param) with
  | mk fs1 e1 =>
  cases e1 with
  | some err =>
    simp [helm.CreateChart, hne, hM] at hok
  | none =>
  have hM2 : (os.MkdirAll fs (helm.chartPath param)).2 = none := by rw [hM]
  obtain ⟨w1, hl1⟩ := os.MkdirAll_ok_lookup fs _ hM2
  have hch1 := os.MkdirAll_changes fs (helm.chartPath param)
  have hk1 := os.MkdirAll_dirsKept fs (helm.chartPath param)
  rw [hM] at hl1 hch1 hk1
  simp only at hl1 hch1 hk1
  have hn1 : fs1 (helm.chartPath param) = some (.dir w1) := by
    simpa using os.lookup_node fs1 _ [] _ hl1
  have hc1 : fs1 (helm.chartPath param) = some (.dir true) :=
    (hch1 _ (by rw [hn1, hfc]; simp)).2.1
  have hlen : (helm.chartTemplatesPath param).length = (helm.chartPath param).length + 1 := by
    rw [helm.chartTemplatesPath_eq]; simp
  have ht1 : fs1 (helm.chartTemplatesPath param) = none := by
    by_contra hcon
    have hneq : fs1 (helm.chartTemplatesPath param) ≠ fs (helm.chartTemplatesPath param) := by
      rw [hft]; exact hcon
    have := (hch1 _ hneq).2.2.length_le
    omega
  have hst1 : os.IsNotExist (os.Stat fs1 (helm.chartTemplatesPath param)) = true := by
    rw [os.IsNotExist_Stat, helm.chartTemplatesPath_eq, os.lookup_snoc fs1 "templates" _ [] w1 hl1]
    have := ht1
    rw [helm.chartTemplatesPath_eq] at this
    simp only [List.nil_append]
    rw [this]
  -- second directory
  cases hM' : os.MkdirAll fs1 (helm.chartTemplatesPath param) with
  | mk fs2 e2 =>
  cases e2 with
  | some err =>
    simp [helm.CreateChart, hne, hM, hst1, hM'] at hok
  | none =>
  have hrun : helm.CreateChart a fs param =
      { result := (helm.writeTemplates param a.templates fs2).result
        logs := logInfo "Helm:CreateChart activity started" [("Param", .createChartParam param)]
          :: (helm.writeTemplates param a.templates fs2).logs
        fs := (helm.writeTemplates param a.templates fs2).fs } := by
    simp [helm.CreateChart, hne, hM, hst1, hM']
  rw [hrun] at hok ⊢
  simp only at hok ⊢
  have hM2' : (os.MkdirAll fs1 (helm.chartTemplatesPath param)).2 = none := by rw [hM']
  obtain ⟨w2, hl2⟩ := os.MkdirAll_ok_lookup fs1 _ hM2'
  have hch2 := os.MkdirAll_changes fs1 (helm.chartTemplatesPath param)
  have hk2 := os.MkdirAll_dirsKept fs1 (helm.chartTemplatesPath param)
  rw [hM'] at hl2 hch2 hk2
  simp only at hl2 hch2 hk2
  have hn2 : fs2 (helm.chartTemplatesPath param) = some (.dir w2) := by
    simpa using os.lookup_node fs2 _ [] _ hl2
  have ht2 : fs2 (helm.chartTemplatesPath param) = some (.dir true) :=
    (hch2 _ (by rw [hn2, ht1]; simp)).2.1
  have hc2 : fs2 (helm.chartPath param) = some (.dir true) := hk2 _ _ hc1
  have ho2 : ∃ w, fs2 (helm.onepaasPath param) = some (.dir w) := by
    rw [hcp] at hl1
    obtain ⟨w, hw⟩ := os.lookup_snoc_ok fs1 "chart" _ [] _ hl1
    exact ⟨w, hk2 _ _ (by simpa using hw)⟩
  -- the loop
  obtain ⟨hnotdir, hother, hcontent⟩ := helm.writeTemplates_ok param a.templates fs2 hok
  have hkept := helm.writeTemplates_dirsKept param a.templates fs2
  have hasset : ∀ p tpl, (p, tpl) ∈ a.templates →
      ∃ (dir : List String) (stem : String),
        (dir = ["chart"] ∨ dir = ["chart", "templates"]) ∧
        p = String.intercalate "/" dir ++ "/" ++ stem ++ ".gohtml" ∧
        filepath.split (strings.TrimSuffix p ".gohtml") = dir ++ [stem] ∧
        helm.target param p tpl = helm.onepaasPath param ++ dir ++ [stem] ∧
        helm.outputPath param p = helm.onepaasPath param ++ dir ++ [stem] := by
    intro p tpl hmem
    obtain ⟨hpat, hname⟩ := hsrc p tpl hmem
    obtain ⟨dir, stem, hdir, hp, hsp, htg, hout⟩ := helm.asset_paths param p tpl hpat hname
    have hnd := hnotdir (p, tpl) hmem
    simp only at hnd
    rcases helm.cleanStep_cases (helm.onepaasPath param ++ dir) stem with hpl | hsame | hdrop
    · rw [filepath.cleanStep_plain _ _ hpl] at htg hout
      exact ⟨dir, stem, hdir, hp, hsp, htg, hout⟩
    · exfalso
      rw [hsame] at htg
      rcases hdir with hd | hd
      · rw [hd, ← hcp] at htg
        exact hnd true (by rw [htg]; exact hc2)
      · rw [hd, ← htp] at htg
        exact hnd true (by rw [htg]; exact ht2)
    · exfalso
      rw [hdrop] at htg
      rcases hdir with hd | hd
      · obtain ⟨w, hw⟩ := ho2
        rw [hd, List.dropLast_concat] at htg
        exact hnd w (by rw [htg]; exact hw)
      · have e : (helm.onepaasPath param ++ ["chart", "templates"]).dropLast =
            helm.chartPath param := by
          rw [hcp]
          have : helm.onepaasPath param ++ ["chart", "templates"] =
              (helm.onepaasPath param ++ ["chart"]) ++ ["templates"] := by simp
          rw [this, List.dropLast_concat]
        rw [hd, e] at htg
        exact hnd true (by rw [htg]; exact hc2)
  have htgt : ∀ pt ∈ a.templates, helm.target param pt.1 pt.2 = helm.outputPath param pt.1 := by
    intro pt hmem
    obtain ⟨dir, stem, _, _, _, htg, hout⟩ := hasset pt.1 pt.2 hmem
    rw [htg, hout]
  have hinj : ∀ x ∈ a.templates, ∀ y ∈ a.templates,
      helm.outputPath param x.1 = helm.outputPath param y.1 → x = y := by
    intro x hx y hy hxy
    obtain ⟨d1, s1, _, hp1, _, _, ho1⟩ := hasset x.1 x.2 hx
    obtain ⟨d2, s2, _, hp2, _, _, ho2⟩ := hasset y.1 y.2 hy
    rw [ho1, ho2, List.append_assoc, List.append_assoc] at hxy
    have h3 := List.append_cancel_left hxy
    obtain ⟨hd, hs⟩ := List.append_inj' h3 rfl
    have hs2 : s1 = s2 := by simpa using hs
    have hfst : x.1 = y.1 := by rw [hp1, hp2, hd, hs2]
    exact List.inj_on_of_nodup_map hkeys hx hy hfst
  have hnodup : (a.templates.map (fun pt => helm.outputPath param pt.1)).Nodup :=
    List.Nodup.map_on hinj (List.Nodup.of_map _ hkeys)
  have hnodupT : (a.templates.map (fun pt => helm.target param pt.1 pt.2)).Nodup := by
    have : a.templates.map (fun pt => helm.target param pt.1 pt.2) =
        a.templates.map (fun pt => helm.outputPath param pt.1) :=
      List.map_congr_left htgt
    rw [this]
    exact hnodup
  refine ⟨hkept _ _ hc2, hkept _ _ ht2, hcp, htp, ?_, ?_, hnodup, ?_⟩
  · intro e he hd
    obtain ⟨stem, _, hp⟩ := hembed e he hd
    have hsuf : strings.HasSuffix e.path helm.TemplateExtension = true := by
      rcases hp with hp | hp <;> rw [hp] <;> exact strings.HasSuffix_append _ _
    have hk := hall0 e he hd hsuf
    obtain ⟨kv, hkv, hfst⟩ := List.mem_map.mp hk
    refine ⟨kv.2, hperm.mem_iff.mpr ?_⟩
    rw [← hfst]
    exact hkv
  · intro p tpl hmem
    obtain ⟨dir, stem, _, _, hsp, htg, hout⟩ := hasset p tpl hmem
    have hparsed : ∃ e ∈ chart, e.isDir = false ∧ e.path = p ∧ e.parsed = .ok tpl.Execute := by
      rcases helm.initChartTemplatesFrom_parsed chart [] a0.templates hts (p, tpl)
        (hperm.mem_iff.mp hmem) with h | h
      · simp at h
      · exact h
    refine ⟨(hsrc p tpl hmem).2, by rw [htg, hout], by rw [hout, hsp, List.append_assoc],
      hparsed, ?_⟩
    have := hcontent hnodupT (p, tpl) hmem
    simp only at this
    rw [← htgt (p, tpl) hmem]
    exact this
  · intro q hq
    by_cases hqt : ∃ pt ∈ a.templates, q = helm.outputPath param pt.1
    · exact Or.inl hqt
    · right
      have hq2 : (helm.writeTemplates param a.templates fs2).fs q = fs2 q := by
        apply hother
        intro pt hmem heq
        exact hqt ⟨pt, hmem, by rw [heq, htgt pt hmem]⟩
      rw [hq2] at hq ⊢
      have hpre : helm.chartPath param <+: helm.chartTemplatesPath param := by
        rw [helm.chartTemplatesPath_eq]
        exact List.prefix_append _ _
      by_cases h21 : fs2 q = fs1 q
      · rw [h21] at hq ⊢
        obtain ⟨h1, h2, h3⟩ := hch1 q hq
        exact ⟨h1, h2, h3.trans hpre⟩
      · obtain ⟨h1, h2, h3⟩ := hch2 q h21
        refine ⟨?_, h2, h3⟩
        by_contra hfq
        have hne1 : fs1 q ≠ fs q := by
          rw [h1]
          exact fun h => hfq h.symm
        have := (hch1 q hne1).2.1
        rw [h1] at this
        cases this

theorem fsEmptyRepo_wellFormed : fsEmptyRepo.WellFormed := by
  intro q c h
  cases q with
  | nil => exact ⟨true, rfl⟩
  | cons d q =>
    exfalso
    apply h
    have h1 : d :: q ++ [c] ≠ [] := by simp
    have h2 : d :: q ++ [c] ≠ ["r"] := by simp
    simp [fsEmptyRepo, h2]

theorem chartAssets_embed : ∀ e ∈ chartAssets, e.isDir = false → helm.EmbedPattern e.path := by
  intro e he hd
  simp only [chartAssets, List.mem_cons, List.mem_singleton, List.not_mem_nil, or_false] at he
  rcases he with h | h | h | h | h
  · rw [h] at hd; cases hd
  · rw [h] at hd; cases hd
  · rw [h]; exact ⟨"Chart.yaml", by decide, Or.inl (by decide)⟩
  · rw [h] at hd; cases hd
  · rw [h]; exact ⟨"deployment.yaml", by decide, Or.inr (by decide)⟩

/-- C8 (witness): chart creation in an empty repository directory, with the two
assets `chart/Chart.yaml.gohtml` and `chart/templates/deployment.yaml.gohtml`:
both output files hold the values of the call parameters. -/
theorem CreateChart_writes_chart_witness :
    os.IsNotExist (os.Stat fsEmptyRepo (helm.chartPath paramChart)) = true ∧
    (helm.CreateChart activityChart fsEmptyRepo paramChart).result = none ∧
    (helm.CreateChart activityChart fsEmptyRepo paramChart).fs (helm.chartPath paramChart) =
      some (.dir true) ∧
    (helm.CreateChart activityChart fsEmptyRepo paramChart).fs
      ["r", ".onepaas", "chart", "Chart.yaml"] = some (.file "name: app") ∧
    (helm.CreateChart activityChart fsEmptyRepo paramChart).fs
      ["r", ".onepaas", "chart", "templates", "deployment.yaml"] =
      some (.file "image: docker.io/acme/app:v1") :=
  ⟨by decide, by decide,
   (CreateChart_writes_chart chartAssets activityChart activityChart fsEmptyRepo paramChart
      chartAssets_embed rfl (List.Perm.refl _) fsEmptyRepo_wellFormed (by decide) (by decide)).1,
   ((CreateChart_writes_chart chartAssets activityChart activityChart fsEmptyRepo paramChart
      chartAssets_embed rfl (List.Perm.refl _) fsEmptyRepo_wellFormed (by decide)
      (by decide)).2.2.2.2.2.1
        "chart/Chart.yaml.gohtml"
        { Name := "Chart.yaml.gohtml", Execute := fun d => ("name: " ++ d.ApplicationSlug, none) }
        (List.mem_cons_self _ _)).2.2.2.2,
   ((CreateChart_writes_chart chartAssets activityChart activityChart fsEmptyRepo paramChart
      chartAssets_embed rfl (List.Perm.refl _) fsEmptyRepo_wellFormed (by decide)
      (by decide)).2.2.2.2.2.1
        "chart/templates/deployment.yaml.gohtml"
        { Name := "deployment.yaml.gohtml"
          Execute := fun d =>
            ("image: " ++ d.ImageRegistry ++ "/" ++ d.ImageRepository ++ ":" ++ d.ImageTag, none) }
        (List.mem_cons_of_mem _ (List.mem_cons_self _ _))).2.2.2.2⟩

/-! ### Chart creation: what a successful call leaves -/

namespace os

theorem Create_ok_parent (fs : FileSystem) (path : Path) (h : (Create fs path).2 = none) :
    path ≠ [] ∧ ∃ w, lookup fs [] path.dropLast = .ok (.dir w) := by
  cases hl : lookup fs [] path.dropLast with
  | error e => simp [Create, hl] at h
  | ok m =>
    cases m with
    | file content => simp [Create, hl] at h
    | dir writable =>
      by_cases hp : path = []
      · subst hp
        simp only [List.dropLast_nil] at hl
        simp [Create, hl] at h
      · exact ⟨hp, writable, rfl⟩

theorem lookup_file_of_parent (fs : FileSystem) (path : Path) (w : Bool) (content : String)
    (hp : path ≠ []) (hl : lookup fs [] path.dropLast = .ok (.dir w))
    (hf : fs path = some (.file content)) : lookup fs [] path = .ok (.file content) := by
  have e : path = path.dropLast ++ [path.getLast hp] := (List.dropLast_append_getLast hp).symm
  rw [e, lookup_snoc fs _ _ [] w hl]
  simp only [List.nil_append]
  rw [← e, hf]

theorem Write_file (fs : FileSystem) (path q : Path) (out content : String)
    (h : fs q = some (.file content)) : ∃ c1, Write fs path out q = some (.file c1) := by
  cases hp : fs path with
  | none => exact ⟨content, by simpa [Write, hp] using h⟩
  | some m =>
    cases m with
    | dir w => exact ⟨content, by simpa [Write, hp] using h⟩
    | file c0 =>
      by_cases hq : q = path
      · exact ⟨c0 ++ out, by simp [Write, hp, hq, set_apply]⟩
      · exact ⟨content, by simpa [Write, hp, set_apply, hq] using h⟩

theorem Create_file (fs : FileSystem) (path q : Path) (content : String)
    (h : fs q = some (.file content)) : ∃ c1, (Create fs path).1 q = some (.file c1) := by
  cases hl : lookup fs [] path.dropLast with
  | error e => exact ⟨content, by simpa [Create, hl] using h⟩
  | ok m =>
    cases m with
    | file c0 => exact ⟨content, by simpa [Create, hl] using h⟩
    | dir writable =>
      by_cases hp : path = []
      · subst hp
        simp only [List.dropLast_nil] at hl
        exact ⟨content, by simpa [Create, hl] using h⟩
      · by_cases hq : q = path
        · cases hn : fs path with
          | none =>
            rw [hq, hn] at h
            cases h
          | some m2 =>
            cases m2 with
            | dir w2 =>
              rw [hq, hn] at h
              cases h
            | file c0 => exact ⟨"", by simp [Create, hl, hp, hn, hq, set_apply]⟩
        · cases hn : fs path with
          | none =>
            cases writable with
            | false => exact ⟨content, by simpa [Create, hl, hp, hn] using h⟩
            | true => exact ⟨content, by simpa [Create, hl, hp, hn, set_apply, hq] using h⟩
          | some m2 =>
            cases m2 with
            | dir w2 => exact ⟨content, by simpa [Create, hl, hp, hn] using h⟩
            | file c0 => exact ⟨content, by simpa [Create, hl, hp, hn, set_apply, hq] using h⟩

end os

namespace helm

theorem writeTemplates_file (param : CreateChartParam) (l : List (String × Template)) :
    ∀ (fs : os.FileSystem) (q : Path) (content : String), fs q = some (.file content) →
      ∃ c1, (writeTemplates param l fs).fs q = some (.file c1) := by
  induction l with
  | nil => intro fs q content h; exact ⟨content, h⟩
  | cons pt rest ih =>
    intro fs q content h
    obtain ⟨path, tpl⟩ := pt
    obtain ⟨c1, h1⟩ := os.Create_file fs (target param path tpl) q content h
    cases hC : os.Create fs (target param path tpl) with
    | mk fs1 e =>
      rw [hC] at h1
      simp only at h1
      cases e with
      | some err => exact ⟨c1, by simpa [writeTemplates, hC] using h1⟩
      | none =>
        cases hE : tpl.Execute (dataOf param) with
        | mk out e2 =>
          obtain ⟨c2, h2⟩ := os.Write_file fs1 (target param path tpl) q out c1 h1
          cases e2 with
          | some err => exact ⟨c2, by simpa [writeTemplates, hC, hE] using h2⟩
          | none =>
            have hstep : writeTemplates param ((path, tpl) :: rest) fs =
                writeTemplates param rest (os.Write fs1 (target param path tpl) out) := by
              simp [writeTemplates, hC, hE]
            rw [hstep]
            exact ih _ q c2 h2

theorem writeTemplates_ok_files (param : CreateChartParam) (l : List (String × Template)) :
    ∀ fs : os.FileSystem, (writeTemplates param l fs).result = none →
      ∀ pt ∈ l, ∃ content,
        os.lookup (writeTemplates param l fs).fs [] (target param pt.1 pt.2) = .ok (.file content) := by
  induction l with
  | nil => intro fs _ pt hpt; simp at hpt
  | cons pt0 rest ih =>
    intro fs hok pt hpt
    obtain ⟨path, tpl⟩ := pt0
    cases hC : os.Create fs (target param path tpl) with
    | mk fs1 e =>
      cases e with
      | some err => simp [writeTemplates, hC] at hok
      | none =>
        cases hE : tpl.Execute (dataOf param) with
        | mk out e2 =>
          cases e2 with
          | some err => simp [writeTemplates, hC, hE] at hok
          | none =>
            have hstep : writeTemplates param ((path, tpl) :: rest) fs =
                writeTemplates param rest (os.Write fs1 (target param path tpl) out) := by
              simp [writeTemplates, hC, hE]
            rw [hstep] at hok ⊢
            rcases List.mem_cons.mp hpt with h | h
            · subst h
              simp only
              have hc2 : (os.Create fs (target param path tpl)).2 = none := by rw [hC]
              obtain ⟨hne, w, hpar⟩ := os.Create_ok_parent fs _ hc2
              have hfs1 : fs1 (target param path tpl) = some (.file "") := by
                have := (os.Create_ok fs _ hc2).1
                rw [hC] at this
                simp only at this
                rw [this, os.set_same]
              obtain ⟨c2, h2⟩ := os.Write_file fs1 (target param path tpl) _ out "" hfs1
              obtain ⟨c3, h3⟩ := writeTemplates_file param rest _ _ c2 h2
              have hkept : os.DirsKept fs
                  (writeTemplates param rest (os.Write fs1 (target param path tpl) out)).fs := by
                have h1 := os.Create_dirsKept fs (target param path tpl)
                rw [hC] at h1
                exact os.DirsKept.trans (os.DirsKept.trans h1 (os.Write_dirsKept _ _ _))
                  (writeTemplates_dirsKept param rest _)
              exact ⟨c3, os.lookup_file_of_parent _ _ w c3 hne
                (os.lookup_dirsKept hkept _ [] w hpar) h3⟩
            · exact ih _ hok pt h

theorem CreateChart_fresh_loop (a : Activity) (fs : os.FileSystem) (param : CreateChartParam)
    (hne : os.IsNotExist (os.Stat fs (chartPath param)) = true)
    (hok : (CreateChart a fs param).result = none) :
    (os.MkdirAll fs (chartPath param)).2 = none ∧
    ∃ fs2, (CreateChart a fs param).fs = (writeTemplates param a.templates fs2).fs ∧
      (writeTemplates param a.templates fs2).result = none := by
  cases hM : os.MkdirAll fs (chartPath param) with
  | mk fs1 e1 =>
    cases e1 with
    | some err => simp [CreateChart, hne, hM] at hok
    | none =>
      refine ⟨rfl, ?_⟩
      by_cases hst : os.IsNotExist (os.Stat fs1 (chartTemplatesPath param)) = true
      · cases hM2 : os.MkdirAll fs1 (chartTemplatesPath param) with
        | mk fs2 e2 =>
          cases e2 with
          | some err => simp [CreateChart, hne, hM, hst, hM2] at hok
          | none =>
            refine ⟨fs2, ?_, ?_⟩
            · simp [CreateChart, hne, hM, hst, hM2]
            · simpa [CreateChart, hne, hM, hst, hM2] using hok
      · refine ⟨fs1, ?_, ?_⟩
        · simp [CreateChart, hne, hM, hst]
        · simpa [CreateChart, hne, hM, hst] using hok

end helm

namespace helm

theorem lookup_of_Stat {fs : os.FileSystem} {path : Path} {n : os.Node}
    (h : os.Stat fs path = .ok n) : os.lookup fs [] path = .ok n := by
  unfold os.Stat at h
  split at h
  · rename_i m heq
    simp only [Except.ok.injEq] at h
    rw [heq, h]
  · cases h

end helm

/-- C11 (counterexample): a CreateChart call that returns success does not always
leave a complete chart. A first call fails part-way, on rendering
chart/Chart.yaml.gohtml, after it created the chart directory; the next call
on the same RepositoryPath returns success and there is no file at the output
path of the asset chart/templates/deployment.yaml.gohtml. And when
RepositoryPath/.onepaas is a regular file, the status check fails with
ENOTDIR, the call returns success and there is no chart directory. -/
theorem CreateChart_success_incomplete_counterexample :
    (helm.CreateChart activityStrict fsEmptyRepo paramChartNoSlug).result =
      some (.plain (.lib "template: slug is required")) ∧
    (helm.CreateChart activityStrict fsEmptyRepo paramChartNoSlug).fs ["r", ".onepaas", "chart"] =
      some (.dir true) ∧
    paramChartNoSlug.RepositoryPath = paramChart.RepositoryPath ∧
    (helm.CreateChart activityStrict
      (helm.CreateChart activityStrict fsEmptyRepo paramChartNoSlug).fs paramChart).result = none ∧
    "chart/templates/deployment.yaml.gohtml" ∈ activityStrict.templates.map Prod.fst ∧
    helm.outputPath paramChart "chart/templates/deployment.yaml.gohtml" =
      ["r", ".onepaas", "chart", "templates", "deployment.yaml"] ∧
    (helm.CreateChart activityStrict
      (helm.CreateChart activityStrict fsEmptyRepo paramChartNoSlug).fs paramChart).fs
        ["r", ".onepaas", "chart", "templates", "deployment.yaml"] = none ∧
    os.Stat fsOnepaasFile (helm.chartPath paramChart) =
      .error (.pathError "stat" ["r", ".onepaas", "chart"] .ENOTDIR) ∧
    (helm.CreateChart activityChart fsOnepaasFile paramChart).result = none ∧
    (helm.CreateChart activityChart fsOnepaasFile paramChart).fs (helm.chartPath paramChart) = none := by
  refine ⟨by decide, by decide, by decide, by decide, by decide, by decide, by decide, rfl,
    by decide, by decide⟩

/-- C11 (amended): a CreateChart call whose status check reports that the chart path
does not exist and that returns success leaves a chart directory at
RepositoryPath/.onepaas/chart that contains, for every template asset, a file
at the output path of the asset (the asset path with the .gohtml suffix
stripped). A call that finds the chart path existing returns success and
leaves the filesystem as it found it, whatever the chart holds. -/
theorem CreateChart_success_chart (chart : List helm.EmbedEntry) (a0 a : helm.Activity)
    (fs : os.FileSystem) (param : CreateChartParam)
    (hembed : ∀ e ∈ chart, e.isDir = false → helm.EmbedPattern e.path)
    (hnew : helm.New chart = .ok a0) (hperm : a.templates.Perm a0.templates) :
    (os.IsNotExist (os.Stat fs (helm.chartPath param)) = true →
      (helm.CreateChart a fs param).result = none →
      (∃ w, os.Stat (helm.CreateChart a fs param).fs (helm.chartPath param) = .ok (.dir w)) ∧
      ∀ e ∈ chart, e.isDir = false →
        helm.chartPath param <+: helm.outputPath param e.path ∧
        ∃ content, os.Stat (helm.CreateChart a fs param).fs (helm.outputPath param e.path) =
          .ok (.file content)) ∧
    (∀ n : os.Node, os.Stat fs (helm.chartPath param) = .ok n →
      (helm.CreateChart a fs param).result = none ∧ (helm.CreateChart a fs param).fs = fs) := by
  constructor
  · intro hne hok
    obtain ⟨hmk, fs2, hfs, hres⟩ := helm.CreateChart_fresh_loop a fs param hne hok
    obtain ⟨w, hw⟩ := helm.CreateChart_chart_exists a fs param hne hmk
    refine ⟨⟨w, hw⟩, ?_⟩
    intro e he hd
    -- the asset is a template of the activity
    have hts := helm.New_templates hnew
    obtain ⟨_, hsrc0, _, hall0⟩ :=
      helm.initChartTemplatesFrom_spec chart [] a0.templates hts (by simp)
    have hpat := hembed e he hd
    have hsuf : strings.HasSuffix e.path helm.TemplateExtension = true := by
      obtain ⟨stem, _, hp⟩ := hpat
      rcases hp with hp | hp <;> rw [hp] <;> exact strings.HasSuffix_append _ _
    obtain ⟨kv, hkv, hfst⟩ := List.mem_map.mp (hall0 e he hd hsuf)
    have hname : kv.2.Name = filepath.Base e.path := by
      rcases hsrc0 kv hkv with h | ⟨e2, _, _, hp2, hn2⟩
      · simp at h
      · rw [hn2, ← hp2, hfst]
    have hmem : (e.path, kv.2) ∈ a.templates := by
      apply hperm.mem_iff.mpr
      rw [← hfst]
      exact hkv
    -- the file
    obtain ⟨dir, stem, hdir, _, _, htg, hout⟩ := helm.asset_paths param e.path kv.2 hpat hname
    obtain ⟨content, hfile⟩ := helm.writeTemplates_ok_files param a.templates fs2 hres _ hmem
    simp only at hfile
    rw [← hfs, htg, ← hout] at hfile
    refine ⟨?_, content, helm.Stat_of_lookup hfile⟩
    -- the file lies in the chart directory
    have hlc := helm.lookup_of_Stat hw
    have hnc : (helm.CreateChart a fs param).fs (helm.chartPath param) = some (.dir w) := by
      simpa using os.lookup_node _ _ [] _ hlc
    have hno : ∃ w0, (helm.CreateChart a fs param).fs (helm.onepaasPath param) = some (.dir w0) := by
      rw [helm.chartPath_eq] at hlc
      obtain ⟨w0, hw0⟩ := os.lookup_snoc_ok _ "chart" _ [] _ hlc
      exact ⟨w0, by simpa using hw0⟩
    have hnf : (helm.CreateChart a fs param).fs (helm.outputPath param e.path) =
        some (.file content) := by
      simpa using os.lookup_node _ _ [] _ hfile
    have hcp := helm.chartPath_eq param
    rcases helm.cleanStep_cases (helm.onepaasPath param ++ dir) stem with hpl | hsame | hdrop
    · rw [hout, filepath.cleanStep_plain _ _ hpl, hcp]
      rcases hdir with h | h
      · rw [h]
        exact List.prefix_append _ _
      · rw [h]
        exact ⟨["templates", stem], by simp⟩
    · rw [hsame] at hout
      rcases hdir with h | h
      · exfalso
        rw [h, ← hcp] at hout
        rw [hout, hnc] at hnf
        cases hnf
      · rw [hout, h, hcp]
        exact ⟨["templates"], by simp⟩
    · exfalso
      rw [hdrop] at hout
      rcases hdir with h | h
      · obtain ⟨w0, hw0⟩ := hno
        rw [h, List.dropLast_concat] at hout
        rw [hout, hw0] at hnf
        cases hnf
      · have e1 : (helm.onepaasPath param ++ ["chart", "templates"]).dropLast =
            helm.chartPath param := by
          rw [hcp]
          have : helm.onepaasPath param ++ ["chart", "templates"] =
              (helm.onepaasPath param ++ ["chart"]) ++ ["templates"] := by simp
          rw [this, List.dropLast_concat]
        rw [h, e1] at hout
        rw [hout, hnc] at hnf
        cases hnf
  · intro n hn
    apply helm.CreateChart_skip
    rw [hn]
    rfl

/-- C11 (witness): chart creation in an empty repository directory. -/
theorem CreateChart_success_chart_witness :
    os.IsNotExist (os.Stat fsEmptyRepo (helm.chartPath paramChart)) = true ∧
    (helm.CreateChart activityChart fsEmptyRepo paramChart).result = none ∧
    (∃ w, os.Stat (helm.CreateChart activityChart fsEmptyRepo paramChart).fs
      (helm.chartPath paramChart) = .ok (.dir w)) ∧
    (∃ content, os.Stat (helm.CreateChart activityChart fsEmptyRepo paramChart).fs
      (helm.outputPath paramChart "chart/Chart.yaml.gohtml") = .ok (.file content)) :=
  ⟨by decide, by decide,
   ((CreateChart_success_chart chartAssets activityChart activityChart fsEmptyRepo paramChart
      chartAssets_embed rfl (List.Perm.refl _)).1 (by decide) (by decide)).1,
   (((CreateChart_success_chart chartAssets activityChart activityChart fsEmptyRepo paramChart
      chartAssets_embed rfl (List.Perm.refl _)).1 (by decide) (by decide)).2
        { path := "chart/Chart.yaml.gohtml", walkErr := none, isDir := false,
          parsed := .ok (fun d => ("name: " ++ d.ApplicationSlug, none)) }
        (by simp [chartAssets]) rfl).2⟩

end OnePaas
